import Mathlib

/-! ELITE360 map engine: layer store, hover coordinator, interaction modes, viewport reload

A shallow embedding of the map part of `src/app/static/js/app.js`:

* the loop of `loadMapData` (lines 801-852) that re-numbers the fetched features and
  sorts them into the four collections `spans`, `nodes`, `drops`, `zones`;
* the guarded `setData` writes to the four map sources;
* the `mousemove` / `mouseleave` handlers of `setupMapInteractions` (lines 506-557) together
  with `getSourceForLayer` (lines 559-565);
* the mode controller: `toggleMeasure`, `onMeasureClick`, `clearMeasurement` (lines 891-973),
  `toggleSelectMode`, `toggleTaskSelection`, `clearSelection` and the guards of
  `applyBulkUpdate` (lines 1470-1594), and the layer click handler (lines 510-519);
* the `moveend` debounce timer of `initMap` (lines 306-312);
* the continuation of `applyBulkUpdate`, `switchBasemap` with its `style.load` callback
  (lines 2527-2547), the paint layers of `addMapLayers` with `toggleLayer` and
  `setLineWidth`, and the popup placement of `showHoverPopup` (lines 583-586), whose
  arithmetic on JavaScript numbers is modelled by rationals rounded to the nearest double.

JavaScript values are modelled as follows.  A property that the code only compares against
string literals with `===` is an `Option String` (`none` stands for every value that is not
a string).  An object that may be `null`/`undefined` and is dereferenced by the code is an
`Option`, and the dereference of `none` is the `TypeError` the engine would throw.
-/

namespace Elite360

/-! ## Data model -/

/-- The top-level GeoJSON `id` of a feature as it arrives from the server. -/
inductive FeatId where
  | absent
  | num (n : Nat)
  | str (s : String)
  deriving DecidableEq, Repr

/-- Longitude/latitude extent `west,south,east,north`, in fixed-point degrees. -/
structure Bounds where
  west : Int
  south : Int
  east : Int
  north : Int
  deriving DecidableEq, Repr

/-- A GeoJSON geometry: its `type` string and the positions it is made of
(longitude, latitude in fixed-point degrees; the nesting of rings is flattened,
`loadMapData` never looks at it). -/
structure Geometry where
  type : String
  coordinates : List (Int × Int)
  deriving DecidableEq, Repr

/-- The property bag of a feature, restricted to the fields read by the modelled code:
`category` (the explicit tag) and `id` (the task identifier shown in the panel). -/
structure Properties where
  category : Option String
  id : String
  deriving DecidableEq, Repr

/-- A feature of the fetched collection.  `properties` and `geometry` may be missing. -/
structure Feature where
  id : FeatId
  properties : Option Properties
  geometry : Option Geometry
  deriving DecidableEq, Repr

/-- The four render categories. -/
inductive Category where
  | span
  | node
  | drop
  | zone
  deriving DecidableEq, Repr

/-- Exceptions that the modelled code can raise. -/
inductive JsError where
  | typeError
  | requestFailed (msg : String)
  deriving DecidableEq, Repr

deriving instance DecidableEq for Except

/-! ## Category routing (`loadMapData`, lines 825-835) -/

/-- The `if / else if` chain of the `forEach` callback: the explicit tag first, then the
geometry type.  Reading `f.properties.category` or `f.geometry.type` through a missing
object throws. -/
def routeFeature (f : Feature) : Except JsError Category :=
  match f.properties with
  | none => .error .typeError
  | some p =>
    let cat := p.category
    if cat = some "span" then .ok .span
    else if cat = some "node" then .ok .node
    else if cat = some "drop" then .ok .drop
    else if cat = some "zone" then .ok .zone
    else
      match f.geometry with
      | none => .error .typeError
      | some g =>
        let gt := g.type
        if gt = "LineString" ∨ gt = "MultiLineString" then .ok .span
        else if gt = "Polygon" ∨ gt = "MultiPolygon" then .ok .zone
        else .ok .node

/-- The four local feature collections built by one load. -/
structure Parts where
  spans : List Feature
  nodes : List Feature
  drops : List Feature
  zones : List Feature
  deriving DecidableEq, Repr

/-- The four empty collections created before the loop (lines 818-821). -/
def Parts.empty : Parts := ⟨[], [], [], []⟩

/-- Append `f` to the collection of category `c` (`xs.features.push(f)`). -/
def Parts.push (p : Parts) (c : Category) (f : Feature) : Parts :=
  match c with
  | .span => { p with spans := p.spans ++ [f] }
  | .node => { p with nodes := p.nodes ++ [f] }
  | .drop => { p with drops := p.drops ++ [f] }
  | .zone => { p with zones := p.zones ++ [f] }

/-- Read one collection by category. -/
def Parts.get (p : Parts) (c : Category) : List Feature :=
  match c with
  | .span => p.spans
  | .node => p.nodes
  | .drop => p.drops
  | .zone => p.zones

/-- The loop `geojson.features.forEach((f, i) => ...)` from index `i` on, with the
collections built so far in `acc`: sets `f.id = i`, routes `f`, pushes it.  The first
exception aborts the loop. -/
def forEachFeature : List Feature → Nat → Parts → Except JsError Parts
  | [], _, acc => .ok acc
  | f :: rest, i, acc =>
    let f1 : Feature := { f with id := .num i }
    match routeFeature f1 with
    | .error e => .error e
    | .ok c => forEachFeature rest (i + 1) (acc.push c f1)

/-- The features of a fetched list after the assignment `f.id = i`, numbering from `i`. -/
def assignIds : List Feature → Nat → List Feature
  | [], _ => []
  | f :: rest, i => { f with id := .num i } :: assignIds rest (i + 1)

/-- The re-numbered features routed to category `c`, in fetch order. -/
def routedTo (fs : List Feature) (c : Category) : List Feature :=
  (assignIds fs 0).filter (fun f => decide (routeFeature f = .ok c))

/-- Whether the explicit category tag of `f` is the string `t`. -/
def hasTag (t : String) (f : Feature) : Bool :=
  match f.properties with
  | none => false
  | some p => decide (p.category = some t)

/-! ## Map sources and the load -/

/-- The four GeoJSON sources of the map; `none` means `map.getSource(name)` is undefined. -/
structure MapSources where
  spans : Option (List Feature)
  nodes : Option (List Feature)
  drops : Option (List Feature)
  zones : Option (List Feature)
  deriving DecidableEq, Repr

/-- Read one source by category. -/
def MapSources.get (s : MapSources) (c : Category) : Option (List Feature) :=
  match c with
  | .span => s.spans
  | .node => s.nodes
  | .drop => s.drops
  | .zone => s.zones

/-- The guarded write `if (map.getSource(n)) map.getSource(n).setData(d)`. -/
def setData (src : Option (List Feature)) (d : List Feature) : Option (List Feature) :=
  match src with
  | none => none
  | some _ => some d

/-- The map object: its sources, the camera (zoom and visible bounds) and the feature list
the camera was last fitted to by `fitBounds(turf.bbox(geojson))`. -/
structure MapState where
  sources : MapSources
  zoom : Int
  bounds : Bounds
  fittedTo : Option (List Feature)
  deriving DecidableEq, Repr

/-- The page state read and written by `loadMapData`: the two select boxes and the map. -/
structure PageState where
  projectSelect : String
  statusFilter : String
  map : Option MapState
  deriving DecidableEq, Repr

/-- The query sent to `/api/projects/<id>/map-layer`. -/
structure Request where
  projectId : String
  status : Option String
  bbox : Option Bounds
  deriving DecidableEq, Repr

/-- What `await api(url)` delivers: a rejection, or a JSON body whose `features` field
may be missing. -/
inductive ApiResult where
  | rejected (msg : String)
  | resolved (features : Option (List Feature))
  deriving DecidableEq, Repr

/-- The synchronous prefix of `loadMapData` (lines 802-813): `none` when it returns early,
otherwise the request it issues. -/
def loadMapDataRequest (st : PageState) (useBbox : Bool) : Option Request :=
  if st.projectSelect = "" then none
  else
    match st.map with
    | none => none
    | some m =>
      some { projectId := st.projectSelect
             status := if st.statusFilter = "" then none else some st.statusFilter
             bbox := if useBbox ∧ m.zoom > 10 then some m.bounds else none }

/-- The body of the `try` block of `loadMapData` once the request has settled
(lines 816-848), acting on the map: the loop, the four guarded writes, the camera fit.  The
legend and conflict refresh that follow (lines 848-849) do not touch the map sources and are
left out. -/
def loadMapDataTry (m : MapState) (useBbox : Bool) (r : ApiResult) : Except JsError MapState :=
  match r with
  | .rejected msg => .error (.requestFailed msg)
  | .resolved none => .error .typeError
  | .resolved (some fs) =>
    match forEachFeature fs 0 Parts.empty with
    | .error e => .error e
    | .ok p =>
      let src : MapSources :=
        { spans := setData m.sources.spans p.spans
          nodes := setData m.sources.nodes p.nodes
          drops := setData m.sources.drops p.drops
          zones := setData m.sources.zones p.zones }
      let fit := if ¬ useBbox ∧ fs.length > 0 then some (assignIds fs 0) else m.fittedTo
      .ok { m with sources := src, fittedTo := fit }

/-- The continuation of `loadMapData` after `await`: the `try` block and the `catch`
that only logs.  The result is the settled value of the returned promise. -/
def loadMapDataRespond (m : MapState) (useBbox : Bool) (r : ApiResult) :
    Except JsError MapState :=
  match loadMapDataTry m useBbox r with
  | .ok m1 => .ok m1
  | .error _ => .ok m

/-- A whole `loadMapData(useBbox)` call against a server `api`. -/
def loadMapData (st : PageState) (useBbox : Bool) (api : Request → ApiResult) :
    Except JsError PageState :=
  match loadMapDataRequest st useBbox with
  | none => .ok st
  | some req =>
    match st.map with
    | none => .ok st
    | some m =>
      match loadMapDataRespond m useBbox (api req) with
      | .ok m1 => .ok { st with map := some m1 }
      | .error e => .error e

/-- The sources right after `addMapSources` (lines 320-326): all four exist, all empty. -/
def addMapSources : MapSources := ⟨some [], some [], some [], some []⟩

/-- The event loop runs the continuation of each pending `loadMapData` call when its
response arrives, in arrival order.  Each entry is the `useBbox` flag captured by the call
and the settled request; the continuation holds nothing else of the request. -/
def settleInOrder (m : MapState) : List (Bool × ApiResult) → Except JsError MapState
  | [] => .ok m
  | (b, r) :: rest =>
    match loadMapDataRespond m b r with
    | .ok m1 => settleInOrder m1 rest
    | .error e => .error e

/-! ## Hover coordinator (`setupMapInteractions`, lines 506-557) -/

/-- The layers that get pointer handlers (line 507). -/
def interactiveLayers : List String :=
  ["spans-line", "nodes-circle", "drops-circle", "zones-fill"]

/-- The method `String.prototype.startsWith`. -/
def startsWith (s pre : String) : Bool := pre.data.isPrefixOf s.data

/-- The source name behind a layer id (lines 559-565). -/
def getSourceForLayer (layerId : String) : String :=
  if startsWith layerId "spans" then "spans"
  else if startsWith layerId "nodes" then "nodes"
  else if startsWith layerId "drops" then "drops"
  else if startsWith layerId "zones" then "zones"
  else "spans"

/-- The top-most rendered feature delivered with a pointer event: its numeric `id` (given
by the last load) and its `properties.id`. -/
structure HoverFeature where
  id : Nat
  taskId : String
  deriving DecidableEq, Repr

/-- The state touched by the pointer handlers: the global `currentHoveredId`, the `hover`
feature-state attribute per source name and feature id, whether `#map-hover-popup` carries
the class `hidden`, the canvas cursor, and the id the `spans-highlight` filter compares
against. -/
structure HoverState where
  currentHoveredId : Option Nat
  hover : String → Nat → Bool
  popupHidden : Bool
  cursor : String
  spansHighlight : String

/-- The call `map.setFeatureState({ source, id }, { hover: v })`.  The attribute is kept per
source name and id, whether or not a feature with that id is loaded. -/
def setFeatureState (h : String → Nat → Bool) (source : String) (id : Nat) (v : Bool) :
    String → Nat → Bool :=
  fun s i => if s = source ∧ i = id then v else h s i

/-- The `mouseenter` handler of layer `layerId` (lines 521-525). -/
def onMouseEnter (_layerId : String) (feature : Option HoverFeature) (st : HoverState) :
    HoverState :=
  let st1 := { st with cursor := "pointer" }
  match feature with
  | none => st1
  | some _ => { st1 with popupHidden := false }

/-- The `mousemove` handler of layer `layerId` (lines 527-543). -/
def onMouseMove (layerId : String) (feature : Option HoverFeature) (st : HoverState) :
    HoverState :=
  match feature with
  | none => st
  | some f =>
    let st1 := { st with popupHidden := false }
    if some f.id ≠ st1.currentHoveredId then
      let h1 :=
        match st1.currentHoveredId with
        | some old => setFeatureState st1.hover (getSourceForLayer layerId) old false
        | none => st1.hover
      let h2 := setFeatureState h1 (getSourceForLayer layerId) f.id true
      { st1 with
        currentHoveredId := some f.id
        hover := h2
        spansHighlight := if layerId = "spans-line" then f.taskId else st1.spansHighlight }
    else st1

/-- The `mouseleave` handler of layer `layerId` (lines 545-555). -/
def onMouseLeave (layerId : String) (st : HoverState) : HoverState :=
  let st1 := { st with cursor := "", popupHidden := true }
  let st2 :=
    match st1.currentHoveredId with
    | some old =>
      { st1 with
        hover := setFeatureState st1.hover (getSourceForLayer layerId) old false
        currentHoveredId := none }
    | none => st1
  if layerId = "spans-line" then { st2 with spansHighlight := "" } else st2

/-- A pointer event on one of the layers. -/
inductive PointerEvent where
  | mouseenter (layerId : String) (feature : Option HoverFeature)
  | mousemove (layerId : String) (feature : Option HoverFeature)
  | mouseleave (layerId : String)
  deriving DecidableEq, Repr

/-- The layer an event is delivered to. -/
def PointerEvent.layerId : PointerEvent → String
  | .mouseenter l _ => l
  | .mousemove l _ => l
  | .mouseleave l => l

/-- Run the handler registered for the event. -/
def handlePointer (st : HoverState) : PointerEvent → HoverState
  | .mouseenter l f => onMouseEnter l f st
  | .mousemove l f => onMouseMove l f st
  | .mouseleave l => onMouseLeave l st

/-- Run the handlers for a sequence of events, first to last. -/
def handlePointers (st : HoverState) (evs : List PointerEvent) : HoverState :=
  evs.foldl handlePointer st

/-- The state at page load: `currentHoveredId = null` (line 9), no feature-state set on the
fresh sources, popup hidden. -/
def HoverState.initial : HoverState :=
  { currentHoveredId := none
    hover := fun _ _ => false
    popupHidden := true
    cursor := ""
    spansHighlight := "" }

/-! ## Interaction modes (`toggleMeasure`, `toggleSelectMode`, the click handlers) -/

/-- A clicked map coordinate `[lng, lat]`, in fixed-point degrees. -/
abbrev LngLat := Int × Int

/-- The two functions of the geometry library that the measurement engine calls:
`turf.length(turf.lineString(points), { units: 'kilometers' })` and
`turf.area(turf.polygon([ring]))` in square metres.  The library is loaded by the page and
is not part of the repository, so it is a parameter of the handlers. -/
structure Turf where
  length : List LngLat → ℚ
  area : List LngLat → ℚ

/-- What `#measurement-result` displays: nothing yet, the text written by `onMeasureClick`
(feet, metres, and square feet once there is an area; the numbers before formatting), or a
text written by the drawing tool. -/
inductive ResultText where
  | blank
  | measured (distFt : ℚ) (distM : ℚ) (areaSqFt : Option ℚ)
  | drawn (text : String)
  deriving DecidableEq

/-- A layer filter on the `id` property: `['in', ['get', 'id'], ['literal', ids]]` or
`['==', ['get', 'id'], s]`. -/
inductive IdFilter where
  | inIds (ids : List String)
  | eqId (s : String)
  deriving DecidableEq, Repr

/-- Whether a feature whose `id` property is `x` passes the filter. -/
def IdFilter.accepts : IdFilter → String → Bool
  | .inIds ids, x => decide (x ∈ ids)
  | .eqId s, x => decide (x = s)

/-- The state of the mode controller: the globals `measureMode`, `measurePoints`,
`selectMode`, `selectedTaskIds` (a `Set`, kept in insertion order), the listeners on the map
(`onMeasureClick` registered or not; how many click handlers each interactive layer has),
the transient measure sources and layers, the three selection-highlight layers with their
filters, and the DOM elements the handlers write. -/
structure ModeState where
  page : PageState
  measureMode : Bool
  measurePoints : List LngLat
  measureClickRegistered : Bool
  layerClickHandlers : Nat
  selectMode : Bool
  selectedTaskIds : List String
  cursor : String
  btnMeasureActive : Bool
  btnSelectActive : Bool
  measurePointsSource : Option (List LngLat)
  measurePointsLayer : Bool
  measureLineSource : Option (List LngLat)
  measureLineLayer : Bool
  resultHidden : Bool
  resultText : ResultText
  bulkBarHidden : Bool
  bulkStatusSelect : String
  spansSelectHighlight : Option IdFilter
  nodesSelectHighlight : Option IdFilter
  dropsSelectHighlight : Option IdFilter
  sidePanel : Option String
  alerts : List String

/-- Whether the global `map` is set. -/
def ModeState.hasMap (st : ModeState) : Bool := st.page.map.isSome

/-- The function `clearMeasurement` (lines 966-973).  It calls `map.getLayer` unguarded. -/
def clearMeasurement (st : ModeState) : Except JsError ModeState :=
  let st1 := { st with measurePoints := [] }
  if st1.hasMap then
    .ok { st1 with
      measurePointsLayer := false
      measurePointsSource := none
      measureLineLayer := false
      measureLineSource := none
      resultHidden := true }
  else .error .typeError

/-- The function `toggleMeasure` (lines 891-905).  It calls `map.getCanvas` unguarded. -/
def toggleMeasure (st : ModeState) : Except JsError ModeState :=
  let st1 := { st with measureMode := !st.measureMode }
  if st1.measureMode then
    let st2 := { st1 with btnMeasureActive := true, measurePoints := [] }
    if st2.hasMap then .ok { st2 with cursor := "crosshair", measureClickRegistered := true }
    else .error .typeError
  else
    let st2 := { st1 with btnMeasureActive := false }
    if st2.hasMap then clearMeasurement { st2 with cursor := "", measureClickRegistered := false }
    else .error .typeError

/-- The map click listener `onMeasureClick` (lines 907-964) for a click at `pos`. -/
def onMeasureClick (turf : Turf) (pos : LngLat) (st : ModeState) : Except JsError ModeState :=
  let pts := st.measurePoints ++ [pos]
  let st1 := { st with measurePoints := pts }
  if st1.hasMap then
    let st2 :=
      match st1.measurePointsSource with
      | some _ => { st1 with measurePointsSource := some pts }
      | none => { st1 with measurePointsSource := some pts, measurePointsLayer := true }
    if pts.length ≥ 2 then
      let st3 :=
        match st2.measureLineSource with
        | some _ => { st2 with measureLineSource := some pts }
        | none => { st2 with measureLineSource := some pts, measureLineLayer := true }
      let distKm := turf.length pts
      let distFt := distKm * 3280.84
      let area :=
        if pts.length ≥ 3 then some (turf.area (pts ++ pts.take 1) * 10.7639) else none
      .ok { st3 with resultText := .measured distFt (distKm * 1000) area, resultHidden := false }
    else .ok st2
  else .error .typeError

/-- The function `updateBulkActionsBar` (lines 1493-1502). -/
def updateBulkActionsBar (st : ModeState) : ModeState :=
  if st.selectedTaskIds.length > 0 then { st with bulkBarHidden := false }
  else { st with bulkBarHidden := true }

/-- The filter built by `updateSelectionHighlight` (lines 1506-1509). -/
def selectionFilter (ids : List String) : IdFilter :=
  if ids.length > 0 then .inIds ids else .eqId "__none__"

/-- The function `updateSelectionHighlight` (lines 1504-1563): each of the three layers gets
the filter, by `setFilter` when it exists and by `addLayer` otherwise (`addLayer` is taken to
succeed: its source and the layer it goes under are created at map load). -/
def updateSelectionHighlight (st : ModeState) : ModeState :=
  if st.hasMap then
    let filter := selectionFilter st.selectedTaskIds
    { st with
      spansSelectHighlight := some filter
      nodesSelectHighlight := some filter
      dropsSelectHighlight := some filter }
  else st

/-- The function `toggleTaskSelection` (lines 1483-1491). -/
def toggleTaskSelection (taskId : String) (st : ModeState) : ModeState :=
  let ids :=
    if taskId ∈ st.selectedTaskIds then st.selectedTaskIds.erase taskId
    else st.selectedTaskIds ++ [taskId]
  updateSelectionHighlight (updateBulkActionsBar { st with selectedTaskIds := ids })

/-- The function `clearSelection` (lines 1589-1594). -/
def clearSelection (st : ModeState) : ModeState :=
  let st1 := updateSelectionHighlight (updateBulkActionsBar { st with selectedTaskIds := [] })
  { st1 with bulkStatusSelect := "" }

/-- The function `toggleSelectMode` (lines 1470-1481). -/
def toggleSelectMode (st : ModeState) : ModeState :=
  let st1 := { st with selectMode := !st.selectMode }
  if st1.selectMode then
    { st1 with
      btnSelectActive := true
      cursor := if st1.hasMap then "crosshair" else st1.cursor }
  else
    clearSelection { st1 with
      btnSelectActive := false
      cursor := if st1.hasMap then "" else st1.cursor }

/-- The call `openSidePanel(feature.properties)`: the panel shows the clicked task. -/
def openSidePanel (f : HoverFeature) (st : ModeState) : ModeState :=
  { st with sidePanel := some f.taskId }

/-- One click handler of an interactive layer (lines 510-519), for the top-most feature
`feature` of that layer under the pointer. -/
def onLayerClick (feature : Option HoverFeature) (st : ModeState) : ModeState :=
  if st.measureMode then st
  else
    match feature with
    | none => st
    | some f =>
      if st.selectMode then toggleTaskSelection f.taskId st
      else openSidePanel f st

/-- A click on the map at `pos` over the feature `feature` of an interactive layer: the
click handlers of that layer run (registered first, at map load), then `onMeasureClick` if it
is registered. -/
def mapClick (turf : Turf) (feature : HoverFeature) (pos : LngLat) (st : ModeState) :
    Except JsError ModeState :=
  let st1 := Nat.iterate (onLayerClick (some feature)) st.layerClickHandlers st
  if st1.measureClickRegistered then onMeasureClick turf pos st1 else .ok st1

/-- A sequence of clicks on features, first to last; the first exception stops it. -/
def mapClicks (turf : Turf) : ModeState → List (HoverFeature × LngLat) → Except JsError ModeState
  | st, [] => .ok st
  | st, (f, pos) :: rest =>
    match mapClick turf f pos st with
    | .ok st1 => mapClicks turf st1 rest
    | .error e => .error e

/-- A sequence of clicks in Measure mode, first to last: `onMeasureClick` for each. -/
def measureClicks (turf : Turf) : ModeState → List LngLat → Except JsError ModeState
  | st, [] => .ok st
  | st, pos :: rest =>
    match onMeasureClick turf pos st with
    | .ok st1 => measureClicks turf st1 rest
    | .error e => .error e

/-- The state of the mode controller when the map has loaded: both modes off, nothing
selected or measured, one click handler per interactive layer. -/
def ModeState.initial (page : PageState) : ModeState :=
  { page := page
    measureMode := false
    measurePoints := []
    measureClickRegistered := false
    layerClickHandlers := 1
    selectMode := false
    selectedTaskIds := []
    cursor := ""
    btnMeasureActive := false
    btnSelectActive := false
    measurePointsSource := none
    measurePointsLayer := false
    measureLineSource := none
    measureLineLayer := false
    resultHidden := true
    resultText := .blank
    bulkBarHidden := true
    bulkStatusSelect := ""
    spansSelectHighlight := none
    nodesSelectHighlight := none
    dropsSelectHighlight := none
    sidePanel := none
    alerts := [] }

/-- The body of the bulk-update request (lines 1574-1580). -/
structure BulkRequest where
  projectId : String
  taskIds : List String
  status : String
  deriving DecidableEq, Repr

/-- The synchronous prefix of `applyBulkUpdate` (lines 1565-1571): the three guards, each
with its `alert`, and otherwise the request that is sent. -/
def applyBulkUpdateRequest (st : ModeState) : ModeState × Option BulkRequest :=
  let projectId := st.page.projectSelect
  if projectId = "" then ({ st with alerts := st.alerts ++ ["Select a project first"] }, none)
  else if st.selectedTaskIds.length = 0 then
    ({ st with alerts := st.alerts ++ ["No tasks selected"] }, none)
  else
    let status := st.bulkStatusSelect
    if status = "" then ({ st with alerts := st.alerts ++ ["Select a status to apply"] }, none)
    else (st, some { projectId := projectId, taskIds := st.selectedTaskIds, status := status })

/-! ## Bulk update, reload and basemap swap on the mode state -/

/-- What `await api(.../tasks/bulk-update)` delivers: a rejection, or a body whose `updated`
count may be missing. -/
inductive BulkApiResult where
  | rejected (msg : String)
  | resolved (updated : Option Nat)
  deriving DecidableEq, Repr

/-- The text `${result.updated} task(s) updated`. -/
def updatedText (updated : Option Nat) : String :=
  (match updated with
    | some n => toString n
    | none => "undefined") ++ " task(s) updated"

/-- The continuation of `applyBulkUpdate` after `await` (lines 1581-1586), run on the state
at the time the response arrives: on success the alert, `clearSelection()` and the call
`loadMapData()`; on failure only the alert.  The second component is the `useBbox` argument
of the `loadMapData` call made, if one is made. -/
def applyBulkUpdateRespond (st : ModeState) (r : BulkApiResult) : ModeState × Option Bool :=
  match r with
  | .rejected msg => ({ st with alerts := st.alerts ++ ["Bulk update failed: " ++ msg] }, none)
  | .resolved updated =>
    (clearSelection { st with alerts := st.alerts ++ [updatedText updated] }, some false)

/-- A call `loadMapData(useBbox)` seen from the mode controller: it reads and writes the page
(select boxes, map sources, camera) and none of the mode globals. -/
def reloadMapData (st : ModeState) (useBbox : Bool) (api : Request → ApiResult) :
    Except JsError ModeState :=
  match loadMapData st.page useBbox api with
  | .ok page1 => .ok { st with page := page1 }
  | .error e => .error e

/-- The selection-highlight layer of a category, if `updateSelectionHighlight` has created
one: it creates `spans-select-highlight`, `nodes-select-highlight` and
`drops-select-highlight` (lines 1511-1562) and no layer for zones. -/
def ModeState.selectHighlight (st : ModeState) : Category → Option IdFilter
  | .span => st.spansSelectHighlight
  | .node => st.nodesSelectHighlight
  | .drop => st.dropsSelectHighlight
  | .zone => none

/-- The function `setupMapInteractions` as far as clicks go (lines 506-519): every call adds
one click handler to each interactive layer; listeners stay on the map object. -/
def setupMapInteractions (st : ModeState) : ModeState :=
  { st with layerClickHandlers := st.layerClickHandlers + 1 }

/-- The function `switchBasemap` together with its `style.load` callback (lines 2527-2547).
The data of every existing source is kept in `currentData`; `setStyle` discards the sources
and layers of the old style; the callback runs `addMapSources`, `addMapLayers`,
`setupMapInteractions` and puts the kept data back with `setData`. -/
def switchBasemap (st : ModeState) : ModeState :=
  match st.page.map with
  | none => st
  | some m =>
    let currentData := m.sources
    let cleared := { st with
      measurePointsSource := none
      measurePointsLayer := false
      measureLineSource := none
      measureLineLayer := false
      spansSelectHighlight := none
      nodesSelectHighlight := none
      dropsSelectHighlight := none }
    let fresh := addMapSources
    let restore (kept src : Option (List Feature)) : Option (List Feature) :=
      match kept with
      | some d => setData src d
      | none => src
    let sources : MapSources :=
      { spans := restore currentData.spans fresh.spans
        nodes := restore currentData.nodes fresh.nodes
        drops := restore currentData.drops fresh.drops
        zones := restore currentData.zones fresh.zones }
    let st1 := setupMapInteractions cleared
    { st1 with page := { st1.page with map := some { m with sources := sources } } }

/-! ## Paint layers (`addMapLayers`, `toggleLayer`, `setLineWidth`) and popup placement -/

/-- A value of a style expression. -/
inductive PaintValue where
  | null
  | bool (b : Bool)
  | num (q : ℚ)
  | str (s : String)
  deriving DecidableEq

/-- The style expressions used by the paint properties: a literal, `['get', prop]`,
`['feature-state', key]`, `['boolean', e, fallback]`, `['coalesce', a, b]`,
`['case', cond, a, b]` and `['*', a, b]`. -/
inductive StyleExpr where
  | lit (v : PaintValue)
  | get (prop : String)
  | featureState (key : String)
  | boolean (e : StyleExpr) (fallback : Bool)
  | coalesce (a b : StyleExpr)
  | caseOf (cond a b : StyleExpr)
  | times (a b : StyleExpr)

/-- Evaluate an expression for a feature with properties `props` and feature state
`fstate`.  A product of non-numbers has no value. -/
def StyleExpr.eval (props fstate : String → PaintValue) : StyleExpr → PaintValue
  | .lit v => v
  | .get prop => props prop
  | .featureState key => fstate key
  | .boolean e fallback =>
    match e.eval props fstate with
    | .bool b => .bool b
    | _ => .bool fallback
  | .coalesce a b =>
    match a.eval props fstate with
    | .null => b.eval props fstate
    | v => v
  | .caseOf cond a b =>
    match cond.eval props fstate with
    | .bool true => a.eval props fstate
    | _ => b.eval props fstate
  | .times a b =>
    match a.eval props fstate, b.eval props fstate with
    | .num x, .num y => .num (x * y)
    | _, _ => .null

/-- A layer of the style: its source, its `visibility` layout property and its paint
properties (text layout properties are left out). -/
structure PaintLayer where
  source : String
  visible : Bool
  paint : List (String × StyleExpr)

/-- The layers of the style by id; `none` means `map.getLayer(id)` is undefined. -/
abbrev StyleLayers := String → Option PaintLayer

/-- The expression `['case', ['boolean', ['feature-state', 'hover'], false], a, b]`. -/
def hoverCase (hovered plain : StyleExpr) : StyleExpr :=
  .caseOf (.boolean (.featureState "hover") false) hovered plain

/-- The expression `['coalesce', ['get', 'style_color'], ['get', 'status_color']]`. -/
def styleOrStatusColor : StyleExpr := .coalesce (.get "style_color") (.get "status_color")

/-- A numeric literal. -/
def numLit (q : ℚ) : StyleExpr := .lit (.num q)

/-- A string literal. -/
def strLit (s : String) : StyleExpr := .lit (.str s)

/-- The layers that `addMapLayers` (lines 328-483) adds to a fresh style, all visible. -/
def addMapLayers : StyleLayers := fun id =>
  if id = "zones-fill" then
    some ⟨"zones", true,
      [("fill-color", styleOrStatusColor),
        ("fill-opacity", .coalesce (.get "style_opacity") (numLit 0.15))]⟩
  else if id = "zones-outline" then
    some ⟨"zones", true,
      [("line-color", styleOrStatusColor),
        ("line-width", .coalesce (.get "style_width") (numLit 2))]⟩
  else if id = "spans-casing" then
    some ⟨"spans", true,
      [("line-color", strLit "#000000"),
        ("line-width", hoverCase (numLit 9) (numLit 6)),
        ("line-opacity", numLit 0.35)]⟩
  else if id = "spans-line" then
    some ⟨"spans", true,
      [("line-color", styleOrStatusColor),
        ("line-width",
          hoverCase (.times (.coalesce (.get "style_width") (numLit 4)) (numLit 1.5))
            (.coalesce (.get "style_width") (numLit 4))),
        ("line-opacity", .coalesce (.get "style_opacity") (numLit 0.95))]⟩
  else if id = "spans-highlight" then
    some ⟨"spans", true,
      [("line-color", strLit "#FFFFFF"), ("line-width", numLit 9),
        ("line-opacity", numLit 0.5)]⟩
  else if id = "spans-label" then
    some ⟨"spans", true,
      [("text-color", strLit "#FFFFFF"), ("text-halo-color", strLit "rgba(0,0,0,0.8)"),
        ("text-halo-width", numLit 2)]⟩
  else if id = "nodes-outer" then
    some ⟨"nodes", true,
      [("circle-radius", hoverCase (numLit 13) (numLit 10)),
        ("circle-color", strLit "rgba(0,0,0,0.3)"), ("circle-blur", numLit 0.5)]⟩
  else if id = "nodes-circle" then
    some ⟨"nodes", true,
      [("circle-radius", hoverCase (numLit 10) (numLit 7)),
        ("circle-color", styleOrStatusColor),
        ("circle-stroke-color", strLit "#FFFFFF"), ("circle-stroke-width", numLit 2.5),
        ("circle-opacity", .coalesce (.get "style_opacity") (numLit 0.95))]⟩
  else if id = "nodes-label" then
    some ⟨"nodes", true,
      [("text-color", strLit "#FFFFFF"), ("text-halo-color", strLit "rgba(0,0,0,0.8)"),
        ("text-halo-width", numLit 2)]⟩
  else if id = "drops-circle" then
    some ⟨"drops", true,
      [("circle-radius", hoverCase (numLit 8) (numLit 5)),
        ("circle-color", styleOrStatusColor),
        ("circle-stroke-color", strLit "#FFFFFF"), ("circle-stroke-width", numLit 1.5),
        ("circle-opacity", .coalesce (.get "style_opacity") (numLit 0.9))]⟩
  else if id = "drops-label" then
    some ⟨"drops", true,
      [("text-color", strLit "#FFFFFF"), ("text-halo-color", strLit "rgba(0,0,0,0.8)"),
        ("text-halo-width", numLit 1.5)]⟩
  else none

/-- The guarded call `if (map.getLayer(id)) map.setLayoutProperty(id, 'visibility', vis)`. -/
def setLayoutVisibility (id : String) (vis : Bool) (layers : StyleLayers) : StyleLayers :=
  fun i => if i = id then (layers i).map (fun l => { l with visible := vis }) else layers i

/-- The table `layerMap` of `toggleLayer` (lines 880-885); an unknown group has no layers. -/
def layerMap (layerGroup : String) : List String :=
  if layerGroup = "spans" then ["spans-casing", "spans-line", "spans-highlight", "spans-label"]
  else if layerGroup = "nodes" then ["nodes-outer", "nodes-circle", "nodes-label"]
  else if layerGroup = "drops" then ["drops-circle", "drops-label"]
  else if layerGroup = "zones" then ["zones-fill", "zones-outline"]
  else []

/-- The function `toggleLayer` (lines 877-889), for the state `checked` of the checkbox. -/
def toggleLayer (layerGroup : String) (checked : Bool) (layers : StyleLayers) : StyleLayers :=
  (layerMap layerGroup).foldl (fun acc id => setLayoutVisibility id checked acc) layers

/-- The guarded call `if (map.getLayer(id)) map.setPaintProperty(id, prop, e)`. -/
def setPaintProperty (id prop : String) (e : StyleExpr) (layers : StyleLayers) : StyleLayers :=
  fun i =>
    if i = id then
      (layers i).map (fun l =>
        { l with paint := (prop, e) :: l.paint.filter (fun p => decide (p.1 ≠ prop)) })
    else layers i

/-- The function `setLineWidth` (lines 2567-2585) for `width = parseInt(val)`. -/
def setLineWidth (width : Int) (layers : StyleLayers) : StyleLayers :=
  let w : ℚ := width
  let l1 := setPaintProperty "spans-line" "line-width" (hoverCase (numLit (w * 1.5)) (numLit w))
    layers
  setPaintProperty "spans-casing" "line-width"
    (hoverCase (numLit (w * 1.5 + 3)) (numLit (w + 2))) l1

/-- The value of paint property `prop` of layer `layer` for a feature with properties
`props` whose `hover` feature state is `hover`. -/
def paintValue (layers : StyleLayers) (layer prop : String) (props : String → PaintValue)
    (hover : Bool) : PaintValue :=
  match layers layer with
  | none => .null
  | some l =>
    match l.paint.lookup prop with
    | none => .null
    | some e => e.eval props (fun k => if k = "hover" then .bool hover else .null)

/-- The hover-sensitive paint properties: layer and property. -/
def hoverSensitive : List (String × String) :=
  [("spans-casing", "line-width"), ("spans-line", "line-width"),
    ("nodes-outer", "circle-radius"), ("nodes-circle", "circle-radius"),
    ("drops-circle", "circle-radius")]

/-- The colour properties of the hover-sensitive layers. -/
def hoverLayerColours : List (String × String) :=
  [("spans-casing", "line-color"), ("spans-line", "line-color"),
    ("nodes-outer", "circle-color"), ("nodes-circle", "circle-color"),
    ("nodes-circle", "circle-stroke-color"), ("drops-circle", "circle-color"),
    ("drops-circle", "circle-stroke-color")]

/-- Round a rational to the nearest integer, a tie going to the even neighbour. -/
def roundHalfEven (q : ℚ) : Int :=
  let f := ⌊q⌋
  let r := q - f
  if r < 1 / 2 then f else if 1 / 2 < r then f + 1 else if f % 2 = 0 then f else f + 1

/-- The IEEE 754 double nearest to the rational `x`, a tie going to the even significand:
the rounding that every `+` and `-` on JavaScript numbers applies to the exact result.  The
spacing of doubles around `x` is `2 ^ (e - 52)` with `e` the binary exponent of `x`, not
below `-1022`; `none` stands for an infinite result. -/
def roundDouble (x : ℚ) : Option ℚ :=
  if x = 0 then some 0
  else
    let e := max (Int.log 2 |x|) (-1022)
    let q : ℚ := 2 ^ (e - 52)
    let y := (roundHalfEven (x / q) : ℚ) * q
    if |y| < 2 ^ (1024 : ℤ) then some y else none

/-- The rational `x` is a finite double. -/
def isDouble (x : ℚ) : Prop := roundDouble x = some x

/-- The `left` offset that `showHoverPopup` gives the popup (lines 583-586), for the pointer
at `px`, a popup of width `w` and a map of width `mapWidth`, all doubles:
`x = px + 15`, then `x - w - 30` if `x + w > mapWidth - 10` and `x` otherwise, every sum and
difference rounded to a double.  The result is `none` if one of them is infinite. -/
def popupLeft (px w mapWidth : ℚ) : Option ℚ :=
  match roundDouble (px + 15) with
  | none => none
  | some x =>
    match roundDouble (x + w), roundDouble (mapWidth - 10) with
    | some r, some lim =>
      if r > lim then
        match roundDouble (x - w) with
        | none => none
        | some d => roundDouble (d - 30)
      else some x
    | _, _ => none

/-! ## Viewport reload timer (`initMap`, lines 306-312) -/

/-- One parameter of the query string built by `loadMapData` (lines 806-812):
`status=<s>` or `bbox=<w>,<s>,<e>,<n>` with its four numbers in the order written. -/
inductive QueryParam where
  | status (s : String)
  | bbox (values : List Int)
  deriving DecidableEq, Repr

/-- The parameters pushed for a request, in order (lines 806-812). -/
def Request.params (r : Request) : List QueryParam :=
  (match r.status with
    | some s => [.status s]
    | none => []) ++
  (match r.bbox with
    | some b => [.bbox [b.west, b.south, b.east, b.north]]
    | none => [])

/-- The timer callback of the `moveend` handler (lines 308-311): the request it makes
`loadMapData(true)` issue, if any. -/
def moveEndCallback (page : PageState) : Option Request :=
  if page.projectSelect = "" then none else loadMapDataRequest page true

/-- The reload timer: the page, the global handle `moveEndTimer`, the ids of the timers set
by the `moveend` handler that have neither fired nor been cleared, the id the next
`setTimeout` returns (ids are positive), and a record of what has happened: how many of
these timers have fired and which requests their callbacks issued. -/
structure ViewportState where
  page : PageState
  moveEndTimer : Option Nat
  pendingTimers : List Nat
  nextTimerId : Nat
  firings : Nat
  issued : List Request
  deriving DecidableEq, Repr

/-- The state when the map has just been created: no timer was ever set. -/
def ViewportState.initial (page : PageState) : ViewportState :=
  { page := page, moveEndTimer := none, pendingTimers := [], nextTimerId := 1,
    firings := 0, issued := [] }

/-- The `moveend` handler (lines 306-312): `if (moveEndTimer) clearTimeout(moveEndTimer)`,
then `moveEndTimer = setTimeout(...)`. -/
def onMoveEnd (v : ViewportState) : ViewportState :=
  let pending :=
    match v.moveEndTimer with
    | some h => if h ≠ 0 then v.pendingTimers.erase h else v.pendingTimers
    | none => v.pendingTimers
  { v with
    moveEndTimer := some v.nextTimerId
    pendingTimers := pending ++ [v.nextTimerId]
    nextTimerId := v.nextTimerId + 1 }

/-- The timer with id `id` comes due: if it is still pending its callback runs. -/
def onTimeout (id : Nat) (v : ViewportState) : ViewportState :=
  if id ∈ v.pendingTimers then
    { v with
      pendingTimers := v.pendingTimers.erase id
      firings := v.firings + 1
      issued := v.issued ++ (moveEndCallback v.page).toList }
  else v

/-- What can happen to the reload timer: the view settles, or a timer comes due. -/
inductive ViewportEvent where
  | moveend
  | timeout (id : Nat)
  deriving DecidableEq, Repr

/-- Handle one event. -/
def stepViewport (v : ViewportState) : ViewportEvent → ViewportState
  | .moveend => onMoveEnd v
  | .timeout id => onTimeout id v

/-- Handle a sequence of events, first to last. -/
def runViewport (v : ViewportState) (evs : List ViewportEvent) : ViewportState :=
  evs.foldl stepViewport v

/-- The shape of the timer bookkeeping in every reachable state: timer ids are positive, and
a pending reload timer, if there is one, is the one `moveEndTimer` refers to. -/
def ViewportState.Settled (v : ViewportState) : Prop :=
  0 < v.nextTimerId ∧
    (v.pendingTimers = [] ∨ ∃ h, h ≠ 0 ∧ v.moveEndTimer = some h ∧ v.pendingTimers = [h])

/-! ## Geometry utilities -/

/-- Modelled from the spec: the Geometry Utilities operation `lineLength(coords, unit)`,
provided by the `turf` library, which is not in the repository.  The length of a path is
the sum of the distances `dist` between consecutive points, in kilometres. -/
def lineLength (dist : LngLat → LngLat → ℚ) : List LngLat → ℚ
  | a :: b :: rest => dist a b + lineLength dist (b :: rest)
  | _ => 0

/-- Modelled from the spec: the Geometry Utilities as called by the measurement engine,
`lineLength` over a segment distance `dist` and a `polygonArea` function `area` (square
metres of the closed ring it is given). -/
def geometryUtilities (dist : LngLat → LngLat → ℚ) (area : List LngLat → ℚ) : Turf :=
  { length := lineLength dist, area := area }

/-! ## Bounding boxes (used to state the frame property of a bounded reload) -/

/-- Whether a position lies in the box. -/
def Bounds.contains (b : Bounds) (pos : Int × Int) : Bool :=
  decide (b.west ≤ pos.1 ∧ pos.1 ≤ b.east ∧ b.south ≤ pos.2 ∧ pos.2 ≤ b.north)

/-- A feature lies outside a box when it has a geometry with at least one position and none
of its positions is in the box. -/
def liesOutside (b : Bounds) (f : Feature) : Bool :=
  match f.geometry with
  | none => false
  | some g => !g.coordinates.isEmpty && g.coordinates.all (fun pos => !b.contains pos)

/-! ## Sample data -/

/-- A feature carrying the explicit tag `t` and a geometry of type `gt`. -/
def taggedFeature (t gt : String) : Feature :=
  ⟨.str "srv", some ⟨some t, "task"⟩, some ⟨gt, [(5, 5)]⟩⟩

/-- A feature without category tag, with a one-position geometry of type `gt` at `pos`. -/
def untaggedFeature (gt : String) (pos : Int × Int) : Feature :=
  ⟨.absent, some ⟨none, "task"⟩, some ⟨gt, [pos]⟩⟩

/-- A small fetched list: an untagged line, a point tagged as drop, an untagged point. -/
def sampleFetch : List Feature :=
  [untaggedFeature "LineString" (1, 1), taggedFeature "drop" "Point",
    untaggedFeature "Point" (2, 2)]

/-- The collections that the loop builds from `sampleFetch`. -/
def sampleParts : Parts :=
  ⟨[{ untaggedFeature "LineString" (1, 1) with id := .num 0 }],
    [{ untaggedFeature "Point" (2, 2) with id := .num 2 }],
    [{ taggedFeature "drop" "Point" with id := .num 1 }], []⟩

/-- The fetched list of the load scenario: 10 spans, 5 nodes and 2 zones, tagged. -/
def scenarioFetch : List Feature :=
  List.replicate 10 (taggedFeature "span" "LineString") ++
    List.replicate 5 (taggedFeature "node" "Point") ++
    List.replicate 2 (taggedFeature "zone" "Polygon")

/-- A freshly initialised map at zoom 12 looking at the box `0,0,10,10`. -/
def sampleMap : MapState := ⟨addMapSources, 12, ⟨0, 0, 10, 10⟩, none⟩

/-- A span far outside the box of `sampleMap`, as stored by an earlier load. -/
def farSpan : Feature := ⟨.num 0, some ⟨some "span", "far"⟩, some ⟨"LineString", [(100, 100)]⟩⟩

/-- A map at zoom 12 looking at `0,0,10,10` whose spans source holds `farSpan`. -/
def panMap : MapState := ⟨⟨some [farSpan], some [], some [], some []⟩, 12, ⟨0, 0, 10, 10⟩, none⟩

/-- The page around `panMap`: project `p1` selected, no status filter. -/
def panPage : PageState := ⟨"p1", "", some panMap⟩

/-- A map on which only the nodes and zones sources exist. -/
def partialMap : MapState := ⟨⟨none, some [], none, some []⟩, 12, ⟨0, 0, 10, 10⟩, none⟩

/-- A feature with no property bag. -/
def brokenFeature : Feature := ⟨.absent, none, some ⟨"Point", [(1, 1)]⟩⟩

/-- The pointer rests on span 0, moves onto node 1 lying on that span, then moves on to the
adjoining span 2. -/
def crossLayerMoves : List PointerEvent :=
  [.mousemove "spans-line" (some ⟨0, "t0"⟩), .mousemove "nodes-circle" (some ⟨1, "t1"⟩),
    .mousemove "spans-line" (some ⟨2, "t2"⟩)]

/-- The pointer rests on span 0, then moves onto node 1 lying on that span. -/
def spanThenNode : List PointerEvent :=
  [.mousemove "spans-line" (some ⟨0, "t0"⟩), .mousemove "nodes-circle" (some ⟨1, "t1"⟩)]

/-- The mode controller on `panPage` right after map load. -/
def loadedModes : ModeState := ModeState.initial panPage

/-- BulkSelect is active and task `t1` is selected. -/
def selectingModes : ModeState := toggleTaskSelection "t1" (toggleSelectMode loadedModes)

/-- The page of `panPage` zoomed out to zoom 5. -/
def zoomedOutPage : PageState := ⟨"p1", "", some { panMap with zoom := 5 }⟩

/-- Three clicked corners of a right triangle: the right angle is at `cornerB`. -/
def cornerA : LngLat := (0, 0)

/-- The corner with the right angle. -/
def cornerB : LngLat := (3, 0)

/-- The third corner. -/
def cornerC : LngLat := (3, 4)

/-- A segment distance, in kilometres, for the triangle `cornerA cornerB cornerC` with legs
of 300 ft and 400 ft and hypotenuse of 500 ft. -/
def triangleDist (a b : LngLat) : ℚ :=
  if (a = cornerA ∧ b = cornerB) ∨ (a = cornerB ∧ b = cornerA) then 300 / 3280.84
  else if (a = cornerB ∧ b = cornerC) ∨ (a = cornerC ∧ b = cornerB) then 400 / 3280.84
  else if (a = cornerA ∧ b = cornerC) ∨ (a = cornerC ∧ b = cornerA) then 500 / 3280.84
  else 0

/-- An area function, in square metres, that gives the ring of the triangle 60,000 sq ft. -/
def triangleArea (_ring : List LngLat) : ℚ := 60000 / 10.7639

/-- Measure is active and the corners `cornerA`, `cornerB` have been clicked. -/
def measuringModes : ModeState :=
  { loadedModes with
    measureMode := true
    btnMeasureActive := true
    cursor := "crosshair"
    measureClickRegistered := true
    measurePoints := [cornerA, cornerB]
    measurePointsSource := some [cornerA, cornerB]
    measurePointsLayer := true
    measureLineSource := some [cornerA, cornerB]
    measureLineLayer := true
    resultHidden := false
    resultText := .measured (300 / 3280.84 * 3280.84) (300 / 3280.84 * 1000) none }

/-- BulkSelect is active and nothing is selected yet. -/
def selectModeOn : ModeState := toggleSelectMode loadedModes

/-- BulkSelect is active with `t1` selected, project `p1` chosen and target status
`approved`. -/
def readyToApply : ModeState := { selectingModes with bulkStatusSelect := "approved" }

/-- A server that answers every map request with `sampleFetch`. -/
def sampleApi (_req : Request) : ApiResult := .resolved (some sampleFetch)

/-- A feature without style overrides. -/
def plainProps (_prop : String) : PaintValue := .null

/-- A feature with the style override `style_width = 6`. -/
def wideProps (prop : String) : PaintValue :=
  if prop = "style_width" then .num 6 else .null

/-- The double written `0.1`. -/
def pointerTenth : ℚ := 3602879701896397 / 36028797018963968

/-- The double written `225.1`. -/
def narrowMapWidth : ℚ := 7920002157196083 / 35184372088832

/-- The double written `15.1`, which is `0.1 + 15` after rounding. -/
def unflippedLeft : ℚ := 8500544296661811 / 562949953421312

/-- The double written `215.1`, which is `225.1 - 10` and also `15.1 + 200` after rounding. -/
def roundedEdge : ℚ := 7568158436307763 / 35184372088832

/-! ## Routing lemmas -/

theorem routeFeature_setId (f : Feature) (i : FeatId) :
    routeFeature { f with id := i } = routeFeature f := rfl

theorem Parts.get_push (p : Parts) (c d : Category) (f : Feature) :
    (p.push c f).get d = if d = c then p.get d ++ [f] else p.get d := by
  cases c <;> cases d <;> simp [Parts.push, Parts.get]

theorem mem_assignIds : ∀ (fs : List Feature) (i : Nat) (g : Feature),
    g ∈ assignIds fs i → ∃ f ∈ fs, ∃ j, g = { f with id := .num j }
  | [], _, g, h => by simp [assignIds] at h
  | f :: rest, i, g, h => by
    simp only [assignIds, List.mem_cons] at h
    rcases h with h | h
    · exact ⟨f, List.mem_cons_self _ _, i, h⟩
    · obtain ⟨f0, hf0, j, hj⟩ := mem_assignIds rest (i + 1) g h
      exact ⟨f0, List.mem_cons_of_mem _ hf0, j, hj⟩

theorem length_assignIds : ∀ (fs : List Feature) (i : Nat), (assignIds fs i).length = fs.length
  | [], _ => rfl
  | _ :: rest, i => by simp [assignIds, length_assignIds rest (i + 1)]

theorem map_id_assignIds : ∀ (fs : List Feature) (i : Nat),
    (assignIds fs i).map (fun f => f.id) = (List.range' i fs.length).map FeatId.num
  | [], _ => rfl
  | _ :: rest, i => by
    simp [assignIds, List.range', map_id_assignIds rest (i + 1)]

theorem getElem?_assignIds : ∀ (fs : List Feature) (i k : Nat),
    (assignIds fs i)[k]? = (fs[k]?).map (fun f => { f with id := .num (i + k) })
  | [], _, _ => by simp [assignIds]
  | f :: rest, i, 0 => by simp [assignIds]
  | f :: rest, i, k + 1 => by
    simp only [assignIds, List.getElem?_cons_succ, getElem?_assignIds rest (i + 1) k]
    have : i + 1 + k = i + (k + 1) := by omega
    rw [this]

/-- What the loop has built when it completes: each collection is what it held before,
followed by the re-numbered features routed to it, in fetch order. -/
theorem forEachFeature_get : ∀ (fs : List Feature) (i : Nat) (acc p : Parts),
    forEachFeature fs i acc = .ok p →
    ∀ c, p.get c = acc.get c ++ (assignIds fs i).filter (fun f => decide (routeFeature f = .ok c))
  | [], _, acc, p, h, c => by
    simp only [forEachFeature, Except.ok.injEq] at h
    simp [assignIds, h]
  | f :: rest, i, acc, p, h, c => by
    simp only [forEachFeature] at h
    cases hr : routeFeature { f with id := .num i } with
    | error e => rw [hr] at h; cases h
    | ok c0 =>
      rw [hr] at h
      have ih := forEachFeature_get rest (i + 1) _ p h c
      rw [ih, Parts.get_push]
      by_cases hc : c = c0
      · subst hc
        simp [assignIds, hr]
      · have hne : ¬ (Except.ok c0 : Except JsError Category) = .ok c := by
          intro h0; cases h0; exact hc rfl
        simp [assignIds, hr, hc, hne]

/-- The loop completes when every feature can be routed. -/
theorem forEachFeature_ok : ∀ (fs : List Feature) (i : Nat) (acc : Parts),
    (∀ f ∈ fs, ∃ c, routeFeature f = .ok c) → ∃ p, forEachFeature fs i acc = .ok p
  | [], _, acc, _ => ⟨acc, rfl⟩
  | f :: rest, i, acc, h => by
    obtain ⟨c, hc⟩ := h f (List.mem_cons_self _ _)
    have hc1 : routeFeature { f with id := .num i } = .ok c := hc
    simp only [forEachFeature, hc1]
    exact forEachFeature_ok rest (i + 1) _ (fun g hg => h g (List.mem_cons_of_mem _ hg))

/-- The loop throws when some feature cannot be routed. -/
theorem forEachFeature_error : ∀ (fs : List Feature) (i : Nat) (acc : Parts),
    (∃ f ∈ fs, ∃ e, routeFeature f = .error e) → ∃ e, forEachFeature fs i acc = .error e
  | [], _, _, h => by
    obtain ⟨f, hf, _⟩ := h
    cases hf
  | f :: rest, i, acc, h => by
    simp only [forEachFeature]
    cases hr : routeFeature { f with id := .num i } with
    | error e => exact ⟨e, rfl⟩
    | ok c =>
      obtain ⟨g, hg, e, he⟩ := h
      rcases List.mem_cons.1 hg with hgf | hgr
      · subst hgf
        have : routeFeature g = .ok c := hr
        rw [this] at he; cases he
      · exact forEachFeature_error rest (i + 1) _ ⟨g, hgr, e, he⟩

theorem forEachFeature_empty (fs : List Feature) (p : Parts)
    (h : forEachFeature fs 0 Parts.empty = .ok p) (c : Category) : p.get c = routedTo fs c := by
  have := forEachFeature_get fs 0 Parts.empty p h c
  rw [this]
  cases c <;> simp [Parts.get, Parts.empty, routedTo]

theorem mem_routedTo (fs : List Feature) (c : Category) (g : Feature) :
    g ∈ routedTo fs c ↔ g ∈ assignIds fs 0 ∧ routeFeature g = .ok c := by
  simp [routedTo, List.mem_filter]

theorem routeFeature_assigned (fs : List Feature) (i : Nat)
    (h : ∀ f ∈ fs, ∃ c, routeFeature f = .ok c) :
    ∀ g ∈ assignIds fs i, ∃ c, routeFeature g = .ok c := by
  intro g hg
  obtain ⟨f, hf, j, rfl⟩ := mem_assignIds fs i g hg
  exact h f hf

/-- The four filtered sub-lists of a routable list are a rearrangement of the list. -/
theorem perm_filter_route (l : List Feature) (h : ∀ g ∈ l, ∃ c, routeFeature g = .ok c) :
    (l.filter (fun f => decide (routeFeature f = .ok .span)) ++
      l.filter (fun f => decide (routeFeature f = .ok .node)) ++
      l.filter (fun f => decide (routeFeature f = .ok .drop)) ++
      l.filter (fun f => decide (routeFeature f = .ok .zone))).Perm l := by
  induction l with
  | nil => simp
  | cons a l ih =>
    have ih1 := ih (fun g hg => h g (List.mem_cons_of_mem _ hg))
    obtain ⟨c, hc⟩ := h a (List.mem_cons_self _ _)
    cases c
    · simpa [List.filter_cons, hc] using ih1
    · simp only [List.filter_cons, hc, decide_True, decide_False, if_true, if_false,
        List.append_assoc, reduceCtorEq, Except.ok.injEq, Bool.false_eq_true]
      refine List.perm_middle.trans ?_
      simpa using ih1
    · simp only [List.filter_cons, hc, decide_True, decide_False, if_true, if_false,
        List.append_assoc, reduceCtorEq, Except.ok.injEq, Bool.false_eq_true]
      rw [← List.append_assoc]
      refine List.perm_middle.trans ?_
      simpa using ih1
    · simp only [List.filter_cons, hc, decide_True, decide_False, if_true, if_false,
        List.append_assoc, reduceCtorEq, Except.ok.injEq, Bool.false_eq_true]
      rw [← List.append_assoc, ← List.append_assoc]
      refine List.perm_middle.trans ?_
      simpa using ih1

/-- A `try` block that completes has written every existing source and no missing one. -/
theorem loadMapDataTry_ok (m : MapState) (b : Bool) (fs : List Feature)
    (h : ∀ f ∈ fs, ∃ c, routeFeature f = .ok c) :
    ∃ m1, loadMapDataTry m b (.resolved (some fs)) = .ok m1 ∧
      (∀ c, m1.sources.get c = setData (m.sources.get c) (routedTo fs c)) ∧
      m1.zoom = m.zoom ∧ m1.bounds = m.bounds := by
  obtain ⟨p, hp⟩ := forEachFeature_ok fs 0 Parts.empty h
  have hget := forEachFeature_empty fs p hp
  refine ⟨{ m with
      sources :=
        { spans := setData m.sources.spans p.spans
          nodes := setData m.sources.nodes p.nodes
          drops := setData m.sources.drops p.drops
          zones := setData m.sources.zones p.zones }
      fittedTo := if ¬ b ∧ fs.length > 0 then some (assignIds fs 0) else m.fittedTo },
    by simp only [loadMapDataTry, hp], ?_, rfl, rfl⟩
  intro c
  cases c
  · exact congrArg (setData m.sources.spans) (hget .span)
  · exact congrArg (setData m.sources.nodes) (hget .node)
  · exact congrArg (setData m.sources.drops) (hget .drop)
  · exact congrArg (setData m.sources.zones) (hget .zone)

theorem loadMapDataRespond_ok (m : MapState) (b : Bool) (fs : List Feature)
    (h : ∀ f ∈ fs, ∃ c, routeFeature f = .ok c) :
    ∃ m1, loadMapDataRespond m b (.resolved (some fs)) = .ok m1 ∧
      (∀ c, m1.sources.get c = setData (m.sources.get c) (routedTo fs c)) ∧
      m1.zoom = m.zoom ∧ m1.bounds = m.bounds := by
  obtain ⟨m1, h1, h2⟩ := loadMapDataTry_ok m b fs h
  exact ⟨m1, by simp only [loadMapDataRespond, h1], h2⟩

theorem forEachFeature_routable (fs : List Feature) (i : Nat) (acc parts : Parts)
    (h : forEachFeature fs i acc = .ok parts) : ∀ f ∈ fs, ∃ c, routeFeature f = .ok c := by
  intro f hf
  cases hr : routeFeature f with
  | ok c => exact ⟨c, rfl⟩
  | error e =>
    obtain ⟨e1, he1⟩ := forEachFeature_error fs i acc ⟨f, hf, e, hr⟩
    rw [he1] at h
    cases h

/-- The routing rule read off a successful `routeFeature` call. -/
theorem routeFeature_rules (f : Feature) (c : Category) (h : routeFeature f = .ok c) :
    ∃ p, f.properties = some p ∧
      (p.category = some "span" → c = .span) ∧
      (p.category = some "node" → c = .node) ∧
      (p.category = some "drop" → c = .drop) ∧
      (p.category = some "zone" → c = .zone) ∧
      (p.category ≠ some "span" → p.category ≠ some "node" → p.category ≠ some "drop" →
        p.category ≠ some "zone" →
        ∃ g, f.geometry = some g ∧
          (g.type = "LineString" ∨ g.type = "MultiLineString" → c = .span) ∧
          (g.type = "Polygon" ∨ g.type = "MultiPolygon" → c = .zone) ∧
          (g.type ≠ "LineString" → g.type ≠ "MultiLineString" → g.type ≠ "Polygon" →
            g.type ≠ "MultiPolygon" → c = .node)) := by
  unfold routeFeature at h
  cases hp : f.properties with
  | none => rw [hp] at h; cases h
  | some p =>
    rw [hp] at h
    refine ⟨p, rfl, ?_⟩
    simp only at h
    split_ifs at h with h1 h2 h3 h4
    · cases h; simp [h1]
    · cases h; simp [h2]
    · cases h; simp [h3]
    · cases h; simp [h4]
    · refine ⟨fun x => absurd x h1, fun x => absurd x h2, fun x => absurd x h3,
        fun x => absurd x h4, fun _ _ _ _ => ?_⟩
      cases hg : f.geometry with
      | none => rw [hg] at h; cases h
      | some g =>
        rw [hg] at h
        refine ⟨g, rfl, ?_⟩
        simp only at h
        split_ifs at h with k1 k2
        · cases h
          rcases k1 with k1 | k1 <;> simp [k1]
        · cases h
          rcases k2 with k2 | k2 <;> simp [k2]
        · cases h
          simp only [not_or] at k1 k2
          exact ⟨fun x => absurd x (not_or.2 k1), fun x => absurd x (not_or.2 k2),
            fun _ _ _ _ => rfl⟩

/-- C1: in a load whose loop completes, the feature fetched at position `k` is stored,
re-numbered, in exactly one collection, and that collection is the one named by its explicit
tag when the tag is `span`, `node`, `drop` or `zone`; otherwise it is `span` for the
geometry types `LineString` and `MultiLineString`, `zone` for `Polygon` and `MultiPolygon`,
and `node` for every other geometry type. -/
theorem category_chosen_by_tag_then_geometry (fs : List Feature) (parts : Parts)
    (hload : forEachFeature fs 0 Parts.empty = .ok parts)
    (k : Nat) (f : Feature) (hk : fs[k]? = some f) :
    ∃ p c, f.properties = some p ∧ routeFeature f = .ok c ∧
      (∀ d, { f with id := .num k } ∈ parts.get d ↔ d = c) ∧
      (p.category = some "span" → c = .span) ∧
      (p.category = some "node" → c = .node) ∧
      (p.category = some "drop" → c = .drop) ∧
      (p.category = some "zone" → c = .zone) ∧
      (p.category ≠ some "span" → p.category ≠ some "node" → p.category ≠ some "drop" →
        p.category ≠ some "zone" →
        ∃ g, f.geometry = some g ∧
          (g.type = "LineString" ∨ g.type = "MultiLineString" → c = .span) ∧
          (g.type = "Polygon" ∨ g.type = "MultiPolygon" → c = .zone) ∧
          (g.type ≠ "LineString" → g.type ≠ "MultiLineString" → g.type ≠ "Polygon" →
            g.type ≠ "MultiPolygon" → c = .node)) := by
  have hf : f ∈ fs := List.getElem?_mem hk
  obtain ⟨c, hc⟩ := forEachFeature_routable fs 0 _ parts hload f hf
  obtain ⟨p, hp, hrules⟩ := routeFeature_rules f c hc
  refine ⟨p, c, hp, hc, ?_, hrules⟩
  intro d
  have hmem : ({ f with id := .num k } : Feature) ∈ assignIds fs 0 := by
    apply List.getElem?_mem (n := k)
    rw [getElem?_assignIds, hk]
    simp
  have hr : routeFeature { f with id := .num k } = .ok c := hc
  rw [forEachFeature_empty fs parts hload d, mem_routedTo]
  constructor
  · rintro ⟨_, h2⟩
    rw [hr] at h2
    cases h2
    rfl
  · rintro rfl
    exact ⟨hmem, hr⟩

theorem category_chosen_witness :
    forEachFeature sampleFetch 0 Parts.empty = .ok sampleParts ∧
      sampleFetch[1]? = some (taggedFeature "drop" "Point") ∧
      ∃ p c, (taggedFeature "drop" "Point").properties = some p ∧
        routeFeature (taggedFeature "drop" "Point") = .ok c ∧
        (p.category = some "drop" → c = .drop) :=
  ⟨by decide, by decide,
    let ⟨p, c, hp, hc, _, _, _, hd, _⟩ :=
      category_chosen_by_tag_then_geometry sampleFetch sampleParts (by decide) 1
        (taggedFeature "drop" "Point") (by decide)
    ⟨p, c, hp, hc, hd⟩⟩

theorem routeFeature_drop_iff (f : Feature) :
    routeFeature f = .ok .drop ↔ hasTag "drop" f = true := by
  unfold routeFeature hasTag
  cases f.properties with
  | none => simp
  | some p =>
    simp only
    split_ifs with h1 h2 h3 h4
    · simp [h1]
    · simp [h2]
    · simp [h3]
    · simp [h4]
    · cases f.geometry with
      | none => simp [h3]
      | some g =>
        simp only
        split_ifs <;> simp [h3]

/-- C2: in a load whose loop completes, a feature is in the drops collection exactly when
it is one of the fetched (re-numbered) features and its explicit tag is `drop`; and a
feature whose tag is not `drop` is never routed to drops, whatever its geometry type. -/
theorem drops_only_by_explicit_tag (fs : List Feature) (parts : Parts)
    (hload : forEachFeature fs 0 Parts.empty = .ok parts) :
    (∀ g, g ∈ parts.drops ↔ g ∈ assignIds fs 0 ∧ hasTag "drop" g = true) ∧
    (∀ f : Feature, routeFeature f = .ok .drop ↔ hasTag "drop" f = true) ∧
    (∀ (i : FeatId) (t : Option String) (n gt : String) (pos : List (Int × Int)),
      t ≠ some "drop" → routeFeature ⟨i, some ⟨t, n⟩, some ⟨gt, pos⟩⟩ ≠ .ok .drop) := by
  refine ⟨?_, routeFeature_drop_iff, ?_⟩
  · intro g
    have h := forEachFeature_empty fs parts hload .drop
    have h1 : parts.drops = routedTo fs .drop := h
    rw [h1, mem_routedTo, routeFeature_drop_iff]
  · intro i t n gt pos ht hr
    rw [routeFeature_drop_iff] at hr
    simp [hasTag] at hr
    exact ht hr

theorem drops_only_by_explicit_tag_witness :
    forEachFeature sampleFetch 0 Parts.empty = .ok sampleParts ∧
      ∀ g, g ∈ sampleParts.drops ↔ g ∈ assignIds sampleFetch 0 ∧ hasTag "drop" g = true :=
  ⟨by decide, (drops_only_by_explicit_tag sampleFetch sampleParts (by decide)).1⟩

theorem length_routedTo_aux : ∀ (fs : List Feature) (i : Nat) (c : Category),
    ((assignIds fs i).filter (fun f => decide (routeFeature f = .ok c))).length =
      fs.countP (fun f => decide (routeFeature f = .ok c))
  | [], _, _ => rfl
  | f :: rest, i, c => by
    have hr : routeFeature { f with id := .num i } = routeFeature f := rfl
    have ih := length_routedTo_aux rest (i + 1) c
    by_cases h : routeFeature f = .ok c
    · simp [assignIds, List.filter_cons, List.countP_cons, hr, h, ih]
    · simp [assignIds, List.filter_cons, List.countP_cons, hr, h, ih]

theorem length_routedTo (fs : List Feature) (c : Category) :
    (routedTo fs c).length = fs.countP (fun f => decide (routeFeature f = .ok c)) :=
  length_routedTo_aux fs 0 c

/-- With an explicit tag the route is the tag. -/
theorem routeFeature_of_hasTag (f : Feature) :
    (hasTag "span" f = true → routeFeature f = .ok .span) ∧
    (hasTag "node" f = true → routeFeature f = .ok .node) ∧
    (hasTag "drop" f = true → routeFeature f = .ok .drop) ∧
    (hasTag "zone" f = true → routeFeature f = .ok .zone) := by
  unfold routeFeature hasTag
  cases f.properties with
  | none => simp
  | some p =>
    simp only [decide_eq_true_eq]
    refine ⟨?_, ?_, ?_, ?_⟩ <;> intro h <;> simp [h]

theorem countP_route_of_tagged (fs : List Feature)
    (h : ∀ f ∈ fs, hasTag "span" f = true ∨ hasTag "node" f = true ∨
      hasTag "drop" f = true ∨ hasTag "zone" f = true) :
    fs.countP (fun f => decide (routeFeature f = .ok .span)) = fs.countP (hasTag "span") ∧
    fs.countP (fun f => decide (routeFeature f = .ok .node)) = fs.countP (hasTag "node") ∧
    fs.countP (fun f => decide (routeFeature f = .ok .drop)) = fs.countP (hasTag "drop") ∧
    fs.countP (fun f => decide (routeFeature f = .ok .zone)) = fs.countP (hasTag "zone") := by
  have key : ∀ f ∈ fs,
      (decide (routeFeature f = .ok .span) = hasTag "span" f) ∧
      (decide (routeFeature f = .ok .node) = hasTag "node" f) ∧
      (decide (routeFeature f = .ok .drop) = hasTag "drop" f) ∧
      (decide (routeFeature f = .ok .zone) = hasTag "zone" f) := by
    intro f hf
    obtain ⟨h1, h2, h3, h4⟩ := routeFeature_of_hasTag f
    rcases h f hf with t | t | t | t
    · rw [h1 t, t]
      cases hn : hasTag "node" f
      · cases hd : hasTag "drop" f
        · cases hz : hasTag "zone" f
          · simp
          · have := h4 hz; rw [h1 t] at this; cases this
        · have := h3 hd; rw [h1 t] at this; cases this
      · have := h2 hn; rw [h1 t] at this; cases this
    · rw [h2 t, t]
      cases hn : hasTag "span" f
      · cases hd : hasTag "drop" f
        · cases hz : hasTag "zone" f
          · simp
          · have := h4 hz; rw [h2 t] at this; cases this
        · have := h3 hd; rw [h2 t] at this; cases this
      · have := h1 hn; rw [h2 t] at this; cases this
    · rw [h3 t, t]
      cases hn : hasTag "span" f
      · cases hd : hasTag "node" f
        · cases hz : hasTag "zone" f
          · simp
          · have := h4 hz; rw [h3 t] at this; cases this
        · have := h2 hd; rw [h3 t] at this; cases this
      · have := h1 hn; rw [h3 t] at this; cases this
    · rw [h4 t, t]
      cases hn : hasTag "span" f
      · cases hd : hasTag "node" f
        · cases hz : hasTag "drop" f
          · simp
          · have := h3 hz; rw [h4 t] at this; cases this
        · have := h2 hd; rw [h4 t] at this; cases this
      · have := h1 hn; rw [h4 t] at this; cases this
  refine ⟨?_, ?_, ?_, ?_⟩
  · exact List.countP_congr (fun f hf => by rw [(key f hf).1])
  · exact List.countP_congr (fun f hf => by rw [(key f hf).2.1])
  · exact List.countP_congr (fun f hf => by rw [(key f hf).2.2.1])
  · exact List.countP_congr (fun f hf => by rw [(key f hf).2.2.2])

theorem nodup_ids_assignIds (fs : List Feature) :
    ((assignIds fs 0).map (fun f => f.id)).Nodup := by
  rw [map_id_assignIds]
  exact (List.nodup_range' 0 fs.length).map (fun a b h => by cases h; rfl)

theorem nodup_ids_routedTo (fs : List Feature) (c : Category) :
    ((routedTo fs c).map (fun f => f.id)).Nodup :=
  (nodup_ids_assignIds fs).sublist (List.filter_sublist _ |>.map _)

/-- C3: when all four sources exist and every fetched feature can be routed, a
non-incremental load completes and leaves in each source exactly the re-numbered features of
the fetched list that `routeFeature` sends to that category, in fetch order; every fetched
feature is in exactly one of the four; no source holds two features with the same id; and
when all features are explicitly tagged, 10 as span, 5 as node, 2 as zone and 0 as drop, the
four sizes are 10, 5, 2 and 0. -/
theorem replace_all_partitions (m : MapState) (fs : List Feature)
    (hsrc : ∀ c, m.sources.get c ≠ none)
    (hwf : ∀ f ∈ fs, ∃ c, routeFeature f = .ok c) :
    ∃ m1, loadMapDataRespond m false (.resolved (some fs)) = .ok m1 ∧
      (∀ c, m1.sources.get c = some (routedTo fs c)) ∧
      (∀ c g, g ∈ routedTo fs c ↔ g ∈ assignIds fs 0 ∧ routeFeature g = .ok c) ∧
      (∀ g ∈ assignIds fs 0, ∃! c, ∃ l, m1.sources.get c = some l ∧ g ∈ l) ∧
      (∀ c l, m1.sources.get c = some l → (l.map (fun f => f.id)).Nodup) ∧
      ((∀ f ∈ fs, hasTag "span" f = true ∨ hasTag "node" f = true ∨
            hasTag "drop" f = true ∨ hasTag "zone" f = true) →
        fs.countP (hasTag "span") = 10 → fs.countP (hasTag "node") = 5 →
        fs.countP (hasTag "zone") = 2 → fs.countP (hasTag "drop") = 0 →
        (m1.sources.spans.map List.length = some 10 ∧
          m1.sources.nodes.map List.length = some 5 ∧
          m1.sources.zones.map List.length = some 2 ∧
          m1.sources.drops.map List.length = some 0)) := by
  obtain ⟨m1, h1, h2, _, _⟩ := loadMapDataRespond_ok m false fs hwf
  have hget : ∀ c, m1.sources.get c = some (routedTo fs c) := by
    intro c
    rw [h2 c]
    cases hm : m.sources.get c with
    | none => exact absurd hm (hsrc c)
    | some l => rfl
  refine ⟨m1, h1, hget, mem_routedTo fs, ?_, ?_, ?_⟩
  · intro g hg
    obtain ⟨c, hc⟩ := routeFeature_assigned fs 0 hwf g hg
    refine ⟨c, ⟨_, hget c, (mem_routedTo fs c g).2 ⟨hg, hc⟩⟩, ?_⟩
    rintro d ⟨l, hl, hgl⟩
    rw [hget d] at hl
    cases hl
    have := ((mem_routedTo fs d g).1 hgl).2
    rw [hc] at this
    cases this
    rfl
  · intro c l hl
    rw [hget c] at hl
    cases hl
    exact nodup_ids_routedTo fs c
  · intro htag hs hn hz hd
    obtain ⟨c1, c2, c3, c4⟩ := countP_route_of_tagged fs htag
    have e1 : m1.sources.spans = some (routedTo fs .span) := hget .span
    have e2 : m1.sources.nodes = some (routedTo fs .node) := hget .node
    have e3 : m1.sources.drops = some (routedTo fs .drop) := hget .drop
    have e4 : m1.sources.zones = some (routedTo fs .zone) := hget .zone
    rw [e1, e2, e3, e4]
    simp [length_routedTo, c1, c2, c3, c4, hs, hn, hz, hd]

theorem replace_all_partitions_witness :
    (∀ c, sampleMap.sources.get c ≠ none) ∧
      (∀ f ∈ scenarioFetch, ∃ c, routeFeature f = .ok c) ∧
      ∃ m1, loadMapDataRespond sampleMap false (.resolved (some scenarioFetch)) = .ok m1 ∧
        m1.sources.spans.map List.length = some 10 ∧
        m1.sources.nodes.map List.length = some 5 ∧
        m1.sources.zones.map List.length = some 2 ∧
        m1.sources.drops.map List.length = some 0 :=
  have hsrc : ∀ c, sampleMap.sources.get c ≠ none := by intro c; cases c <;> decide
  have hwf : ∀ f ∈ scenarioFetch, ∃ c, routeFeature f = .ok c := by
    intro f hf
    have hf1 : f = taggedFeature "span" "LineString" ∨ f = taggedFeature "node" "Point" ∨
        f = taggedFeature "zone" "Polygon" := by
      simp only [scenarioFetch, List.mem_append, List.mem_replicate] at hf
      tauto
    rcases hf1 with rfl | rfl | rfl
    · exact ⟨.span, by decide⟩
    · exact ⟨.node, by decide⟩
    · exact ⟨.zone, by decide⟩
  ⟨hsrc, hwf,
    let ⟨m1, h1, _, _, _, _, h6⟩ := replace_all_partitions sampleMap scenarioFetch hsrc hwf
    ⟨m1, h1, h6 (by decide) (by decide) (by decide) (by decide) (by decide)⟩⟩

/-- C4: when all four sources exist and every fetched feature can be routed, any load
(bounded or not) completes, stores the feature fetched at position `k` with its id replaced
by the number `k`, whatever id it carried, and the ids held by the four sources together are
the numbers `0 .. n-1`, each exactly once, where `n` is the length of the fetched list. -/
theorem load_assigns_dense_ids (m : MapState) (b : Bool) (fs : List Feature)
    (hsrc : ∀ c, m.sources.get c ≠ none)
    (hwf : ∀ f ∈ fs, ∃ c, routeFeature f = .ok c) :
    ∃ m1 sp nd dr zn, loadMapDataRespond m b (.resolved (some fs)) = .ok m1 ∧
      m1.sources.spans = some sp ∧ m1.sources.nodes = some nd ∧
      m1.sources.drops = some dr ∧ m1.sources.zones = some zn ∧
      (∀ (k : Nat) (f : Feature), fs[k]? = some f →
        ({ f with id := .num k } : Feature) ∈ sp ++ nd ++ dr ++ zn) ∧
      (∀ g ∈ sp ++ nd ++ dr ++ zn,
        ∃ (k : Nat) (f : Feature), fs[k]? = some f ∧ g = { f with id := .num k }) ∧
      ((sp ++ nd ++ dr ++ zn).map (fun f => f.id)).Perm
        ((List.range fs.length).map FeatId.num) := by
  obtain ⟨m1, h1, h2, _, _⟩ := loadMapDataRespond_ok m b fs hwf
  have hget : ∀ c, m1.sources.get c = some (routedTo fs c) := by
    intro c
    rw [h2 c]
    cases hm : m.sources.get c with
    | none => exact absurd hm (hsrc c)
    | some l => rfl
  have hperm : (routedTo fs .span ++ routedTo fs .node ++ routedTo fs .drop ++
      routedTo fs .zone).Perm (assignIds fs 0) :=
    perm_filter_route (assignIds fs 0) (routeFeature_assigned fs 0 hwf)
  refine ⟨m1, routedTo fs .span, routedTo fs .node, routedTo fs .drop, routedTo fs .zone,
    h1, hget .span, hget .node, hget .drop, hget .zone, ?_, ?_, ?_⟩
  · intro k f hk
    apply hperm.mem_iff.2
    apply List.getElem?_mem (n := k)
    rw [getElem?_assignIds, hk]
    simp
  · intro g hg
    obtain ⟨k, hk⟩ := List.getElem?_of_mem (hperm.mem_iff.1 hg)
    rw [getElem?_assignIds] at hk
    cases hf : fs[k]? with
    | none => rw [hf] at hk; cases hk
    | some f =>
      rw [hf] at hk
      simp only [Option.map_some', Option.some.injEq, Nat.zero_add] at hk
      exact ⟨k, f, hf, hk.symm⟩
  · have := hperm.map (fun f => f.id)
    rw [map_id_assignIds] at this
    rw [List.range_eq_range']
    exact this

theorem load_assigns_dense_ids_witness :
    (∀ c, sampleMap.sources.get c ≠ none) ∧
      (∀ f ∈ sampleFetch, ∃ c, routeFeature f = .ok c) ∧
      ∃ m1 sp nd dr zn, loadMapDataRespond sampleMap true (.resolved (some sampleFetch)) = .ok m1 ∧
        m1.sources.spans = some sp ∧ m1.sources.nodes = some nd ∧
        m1.sources.drops = some dr ∧ m1.sources.zones = some zn ∧
        ((sp ++ nd ++ dr ++ zn).map (fun f => f.id)).Perm
          ((List.range sampleFetch.length).map FeatId.num) :=
  have hsrc : ∀ c, sampleMap.sources.get c ≠ none := by intro c; cases c <;> decide
  have hwf : ∀ f ∈ sampleFetch, ∃ c, routeFeature f = .ok c :=
    forEachFeature_routable sampleFetch 0 Parts.empty sampleParts (by decide)
  ⟨hsrc, hwf,
    let ⟨m1, sp, nd, dr, zn, h1, h2, h3, h4, h5, _, _, h8⟩ :=
      load_assigns_dense_ids sampleMap true sampleFetch hsrc hwf
    ⟨m1, sp, nd, dr, zn, h1, h2, h3, h4, h5, h8⟩⟩

/-- C5 (as stated, refuted): a bounded reload at zoom 12 of the box `0,0,10,10`, answered
with one feature inside the box, removes a span that was held before and lies outside it. -/
theorem bbox_reload_removes_outside_feature :
    ¬ ∀ (m : MapState) (fs : List Feature) (c : Category) (l : List Feature) (f : Feature),
        m.zoom > 10 → (∀ g ∈ fs, liesOutside m.bounds g = false) →
        m.sources.get c = some l → f ∈ l → liesOutside m.bounds f = true →
        ∃ m1 l1, loadMapDataRespond m true (.resolved (some fs)) = .ok m1 ∧
          m1.sources.get c = some l1 ∧ f ∈ l1 := by
  intro h
  obtain ⟨m1, l1, h1, h2, h3⟩ :=
    h panMap [taggedFeature "span" "LineString"] .span [farSpan] farSpan
      (by decide) (by decide) (by decide) (by decide) (by decide)
  have e : loadMapDataRespond panMap true (.resolved (some [taggedFeature "span" "LineString"]))
      = .ok { panMap with
          sources := ⟨some [{ taggedFeature "span" "LineString" with id := .num 0 }],
            some [], some [], some []⟩ } := by decide
  rw [e] at h1
  cases h1
  have e2 : l1 = [{ taggedFeature "span" "LineString" with id := .num 0 }] := by
    cases h2
    rfl
  rw [e2] at h3
  revert h3
  decide

/-- C5 (amended): a bounded reload whose loop completes replaces every existing source by
the re-numbered fetched features routed to its category, exactly as a non-incremental load of
the same response does; a feature is in a source afterwards exactly when it is one of those
fetched features, so a feature held before is kept only if it is fetched again. -/
theorem bbox_reload_replaces_collections (m : MapState) (fs : List Feature)
    (hwf : ∀ f ∈ fs, ∃ c, routeFeature f = .ok c) :
    ∃ m1 m2, loadMapDataRespond m true (.resolved (some fs)) = .ok m1 ∧
      loadMapDataRespond m false (.resolved (some fs)) = .ok m2 ∧
      m1.sources = m2.sources ∧
      (∀ c, m1.sources.get c = setData (m.sources.get c) (routedTo fs c)) ∧
      (∀ c l1 f, m1.sources.get c = some l1 →
        (f ∈ l1 ↔ f ∈ assignIds fs 0 ∧ routeFeature f = .ok c)) := by
  obtain ⟨m1, h1, h2, _, _⟩ := loadMapDataRespond_ok m true fs hwf
  obtain ⟨m2, k1, k2, _, _⟩ := loadMapDataRespond_ok m false fs hwf
  refine ⟨m1, m2, h1, k1, ?_, h2, ?_⟩
  · have e : ∀ c, m1.sources.get c = m2.sources.get c := fun c => by rw [h2 c, k2 c]
    have e1 := e .span
    have e2 := e .node
    have e3 := e .drop
    have e4 := e .zone
    simp only [MapSources.get] at e1 e2 e3 e4
    cases hs1 : m1.sources
    cases hs2 : m2.sources
    simp only [hs1, hs2] at e1 e2 e3 e4
    simp [e1, e2, e3, e4]
  · intro c l1 f hl
    rw [h2 c] at hl
    cases hm : m.sources.get c with
    | none => rw [hm] at hl; cases hl
    | some l =>
      rw [hm] at hl
      simp only [setData, Option.some.injEq] at hl
      rw [← hl, mem_routedTo]

theorem bbox_reload_replaces_collections_witness :
    (∀ f ∈ sampleFetch, ∃ c, routeFeature f = .ok c) ∧
      ∃ m1, loadMapDataRespond panMap true (.resolved (some sampleFetch)) = .ok m1 ∧
        ∀ c, m1.sources.get c = setData (panMap.sources.get c) (routedTo sampleFetch c) :=
  have hwf : ∀ f ∈ sampleFetch, ∃ c, routeFeature f = .ok c :=
    forEachFeature_routable sampleFetch 0 Parts.empty sampleParts (by decide)
  ⟨hwf,
    let ⟨m1, _, h1, _, _, h4, _⟩ := bbox_reload_replaces_collections panMap sampleFetch hwf
    ⟨m1, h1, h4⟩⟩

/-- C6: when the request is rejected, or the body has no feature list, or some fetched
feature cannot be processed, the `try` block throws, the map (with all four sources) is
exactly what it was before the load, and the call itself completes without an error. -/
theorem failed_load_keeps_collections (m : MapState) (b : Bool) (r : ApiResult)
    (hfail : (∃ msg, r = .rejected msg) ∨ r = .resolved none ∨
      ∃ fs, r = .resolved (some fs) ∧ ∃ f ∈ fs, ∃ e, routeFeature f = .error e) :
    (∃ e, loadMapDataTry m b r = .error e) ∧
      loadMapDataRespond m b r = .ok m ∧
      (∀ (st : PageState) (api : Request → ApiResult) (req : Request),
        st.map = some m → loadMapDataRequest st b = some req → api req = r →
        loadMapData st b api = .ok st) := by
  have htry : ∃ e, loadMapDataTry m b r = .error e := by
    rcases hfail with ⟨msg, rfl⟩ | rfl | ⟨fs, rfl, hbad⟩
    · exact ⟨_, rfl⟩
    · exact ⟨_, rfl⟩
    · obtain ⟨e, he⟩ := forEachFeature_error fs 0 Parts.empty hbad
      exact ⟨e, by simp only [loadMapDataTry, he]⟩
  obtain ⟨e, he⟩ := htry
  have hresp : loadMapDataRespond m b r = .ok m := by
    simp only [loadMapDataRespond, he]
  refine ⟨⟨e, he⟩, hresp, ?_⟩
  intro st api req hmap hreq hapi
  simp only [loadMapData, hreq, hmap, hapi, hresp]
  cases st
  simp only at hmap
  rw [hmap]

theorem failed_load_keeps_collections_witness :
    (∃ fs, ApiResult.resolved (some [taggedFeature "span" "LineString", brokenFeature]) =
        .resolved (some fs) ∧ ∃ f ∈ fs, ∃ e, routeFeature f = .error e) ∧
      loadMapDataRespond panMap false
        (.resolved (some [taggedFeature "span" "LineString", brokenFeature])) = .ok panMap :=
  have hbad : ∃ fs, ApiResult.resolved (some [taggedFeature "span" "LineString", brokenFeature]) =
      .resolved (some fs) ∧ ∃ f ∈ fs, ∃ e, routeFeature f = .error e :=
    ⟨_, rfl, brokenFeature, by decide, .typeError, by decide⟩
  ⟨hbad, (failed_load_keeps_collections panMap false _ (Or.inr (Or.inr hbad))).2.1⟩

/-- C7: a load whose loop completes raises no error, leaves every missing source missing,
and gives every existing source the re-numbered fetched features routed to its category. -/
theorem missing_sources_are_skipped (m : MapState) (b : Bool) (fs : List Feature)
    (hwf : ∀ f ∈ fs, ∃ c, routeFeature f = .ok c) :
    ∃ m1, loadMapDataRespond m b (.resolved (some fs)) = .ok m1 ∧
      ∀ c, (m.sources.get c = none → m1.sources.get c = none) ∧
        (m.sources.get c ≠ none → m1.sources.get c = some (routedTo fs c)) := by
  obtain ⟨m1, h1, h2, _, _⟩ := loadMapDataRespond_ok m b fs hwf
  refine ⟨m1, h1, fun c => ⟨fun hn => ?_, fun hs => ?_⟩⟩
  · rw [h2 c, hn]
    rfl
  · rw [h2 c]
    cases hm : m.sources.get c with
    | none => exact absurd hm hs
    | some l => rfl

theorem missing_sources_are_skipped_witness :
    (∀ f ∈ sampleFetch, ∃ c, routeFeature f = .ok c) ∧
      partialMap.sources.get .span = none ∧ partialMap.sources.get .node ≠ none ∧
      ∃ m1, loadMapDataRespond partialMap false (.resolved (some sampleFetch)) = .ok m1 ∧
        m1.sources.get .span = none ∧
        m1.sources.get .node = some (routedTo sampleFetch .node) :=
  have hwf : ∀ f ∈ sampleFetch, ∃ c, routeFeature f = .ok c :=
    forEachFeature_routable sampleFetch 0 Parts.empty sampleParts (by decide)
  ⟨hwf, by decide, by decide,
    let ⟨m1, h1, h2⟩ := missing_sources_are_skipped partialMap false sampleFetch hwf
    ⟨m1, h1, (h2 .span).1 (by decide), (h2 .node).2 (by decide)⟩⟩

theorem MapSources.ext_get (a b : MapSources) (h : ∀ c, a.get c = b.get c) : a = b := by
  have e1 := h .span
  have e2 := h .node
  have e3 := h .drop
  have e4 := h .zone
  cases a
  cases b
  simp only [MapSources.get] at e1 e2 e3 e4
  simp [e1, e2, e3, e4]

theorem setData_setData (x : Option (List Feature)) (a b : List Feature) :
    setData (setData x a) b = setData x b := by
  cases x <;> rfl

/-- C8 (as stated, refuted): on a fresh map, when the newer response (one span) is applied
first and the older response (one node) arrives afterwards, the sources do not hold the
newer response's data. -/
theorem stale_response_overwrites_newer :
    ¬ ∀ (m : MapState) (fsOld fsNew : List Feature),
        (∀ f ∈ fsOld, ∃ c, routeFeature f = .ok c) →
        (∀ f ∈ fsNew, ∃ c, routeFeature f = .ok c) →
        ∃ mNew mBoth, loadMapDataRespond m true (.resolved (some fsNew)) = .ok mNew ∧
          settleInOrder m [(true, .resolved (some fsNew)), (true, .resolved (some fsOld))]
            = .ok mBoth ∧
          mBoth.sources = mNew.sources := by
  intro h
  obtain ⟨mNew, mBoth, h1, h2, h3⟩ :=
    h sampleMap [taggedFeature "node" "Point"] [taggedFeature "span" "LineString"]
      (fun f hf => ⟨.node, by rw [List.mem_singleton.1 hf]; decide⟩)
      (fun f hf => ⟨.span, by rw [List.mem_singleton.1 hf]; decide⟩)
  have e1 : loadMapDataRespond sampleMap true
      (.resolved (some [taggedFeature "span" "LineString"])) =
      .ok { sampleMap with
        sources := ⟨some [{ taggedFeature "span" "LineString" with id := .num 0 }],
          some [], some [], some []⟩ } := by decide
  have e2 : settleInOrder sampleMap [(true, .resolved (some [taggedFeature "span" "LineString"])),
      (true, .resolved (some [taggedFeature "node" "Point"]))] =
      .ok { sampleMap with
        sources := ⟨some [], some [{ taggedFeature "node" "Point" with id := .num 0 }],
          some [], some []⟩ } := by decide
  have k1 := Except.ok.inj (h1.symm.trans e1)
  have k2 := Except.ok.inj (h2.symm.trans e2)
  rw [k1, k2] at h3
  revert h3
  decide

/-- C8 (amended): when two responses both load, the one that arrives last determines the
sources: after the newer response has been applied and the older one arrives, every existing
source holds the older response's features, the same as if only the older response had been
applied. -/
theorem last_arrival_determines_sources (m : MapState) (bNew bOld : Bool)
    (fsNew fsOld : List Feature)
    (hNew : ∀ f ∈ fsNew, ∃ c, routeFeature f = .ok c)
    (hOld : ∀ f ∈ fsOld, ∃ c, routeFeature f = .ok c) :
    ∃ mOld mBoth, loadMapDataRespond m bOld (.resolved (some fsOld)) = .ok mOld ∧
      settleInOrder m [(bNew, .resolved (some fsNew)), (bOld, .resolved (some fsOld))]
        = .ok mBoth ∧
      mBoth.sources = mOld.sources ∧
      (∀ c, mBoth.sources.get c = setData (m.sources.get c) (routedTo fsOld c)) := by
  obtain ⟨m1, h1, g1, _, _⟩ := loadMapDataRespond_ok m bNew fsNew hNew
  obtain ⟨m2, h2, g2, _, _⟩ := loadMapDataRespond_ok m1 bOld fsOld hOld
  obtain ⟨mO, h3, g3, _, _⟩ := loadMapDataRespond_ok m bOld fsOld hOld
  have hget : ∀ c, m2.sources.get c = setData (m.sources.get c) (routedTo fsOld c) := by
    intro c
    rw [g2 c, g1 c, setData_setData]
  refine ⟨mO, m2, h3, ?_, ?_, hget⟩
  · simp only [settleInOrder, h1, h2]
  · exact MapSources.ext_get _ _ (fun c => by rw [hget c, g3 c])

theorem last_arrival_determines_sources_witness :
    (∀ f ∈ [taggedFeature "span" "LineString"], ∃ c, routeFeature f = .ok c) ∧
      (∀ f ∈ [taggedFeature "node" "Point"], ∃ c, routeFeature f = .ok c) ∧
      ∃ mBoth, settleInOrder sampleMap [(true, .resolved (some [taggedFeature "span" "LineString"])),
          (true, .resolved (some [taggedFeature "node" "Point"]))] = .ok mBoth ∧
        ∀ c, mBoth.sources.get c =
          setData (sampleMap.sources.get c) (routedTo [taggedFeature "node" "Point"] c) :=
  have hNew : ∀ f ∈ [taggedFeature "span" "LineString"], ∃ c, routeFeature f = .ok c :=
    fun f hf => ⟨.span, by rw [List.mem_singleton.1 hf]; decide⟩
  have hOld : ∀ f ∈ [taggedFeature "node" "Point"], ∃ c, routeFeature f = .ok c :=
    fun f hf => ⟨.node, by rw [List.mem_singleton.1 hf]; decide⟩
  ⟨hNew, hOld,
    let ⟨_, mBoth, _, h2, _, h4⟩ :=
      last_arrival_determines_sources sampleMap true true _ _ hNew hOld
    ⟨mBoth, h2, h4⟩⟩

/-- C9 (violated by the code): all events of `crossLayerMoves` are pointer-moves on
interactive layers, yet after them the `spans` source has the hover attribute set on the two
ids 0 and 2; and the move onto node 1 while span 0 was tracked left the hover attribute of
span 0 set in its own source `spans`. -/
theorem hover_left_on_two_span_ids :
    (∀ e ∈ crossLayerMoves, e.layerId ∈ interactiveLayers) ∧
      (handlePointers HoverState.initial crossLayerMoves).hover "spans" 0 = true ∧
      (handlePointers HoverState.initial crossLayerMoves).hover "spans" 2 = true ∧
      (handlePointers HoverState.initial [.mousemove "spans-line" (some ⟨0, "t0"⟩)]).currentHoveredId
        = some 0 ∧
      (handlePointers HoverState.initial spanThenNode).currentHoveredId = some 1 ∧
      (handlePointers HoverState.initial spanThenNode).hover "nodes" 1 = true ∧
      (handlePointers HoverState.initial spanThenNode).hover "spans" 0 = true := by
  decide

/-- C10 (violated by the code): a pointer-leave always sets the tracked id to none and hides
the popup, but after the pointer has moved from span 0 onto node 1, the pointer-leave of
layer `spans-line` leaves the hover attribute of id 0 set in the source `spans`. -/
theorem leave_keeps_hover_of_other_layer (st : HoverState) (layerId : String) :
    (onMouseLeave layerId st).currentHoveredId = none ∧
      (onMouseLeave layerId st).popupHidden = true ∧
      "spans-line" ∈ interactiveLayers ∧
      getSourceForLayer "spans-line" = "spans" ∧
      (onMouseLeave "spans-line" (handlePointers HoverState.initial spanThenNode)).hover
        "spans" 0 = true := by
  refine ⟨?_, ?_, by decide, by decide, by decide⟩
  · unfold onMouseLeave
    cases h : st.currentHoveredId <;> simp only [h] <;> split_ifs <;> simp [h]
  · unfold onMouseLeave
    cases h : st.currentHoveredId <;> simp only [h] <;> split_ifs <;> rfl

/-! ## Interaction modes -/

theorem toggleMeasure_on (st : ModeState) (hmap : st.hasMap = true)
    (hoff : st.measureMode = false) :
    toggleMeasure st = .ok { st with
      measureMode := true, btnMeasureActive := true, measurePoints := [],
      cursor := "crosshair", measureClickRegistered := true } := by
  have hm : st.page.map.isSome = true := hmap
  simp [toggleMeasure, ModeState.hasMap, hoff, hm]

theorem toggleMeasure_off (st : ModeState) (hmap : st.hasMap = true)
    (hon : st.measureMode = true) :
    toggleMeasure st = .ok { st with
      measureMode := false, btnMeasureActive := false, cursor := "",
      measureClickRegistered := false, measurePoints := [],
      measurePointsLayer := false, measurePointsSource := none,
      measureLineLayer := false, measureLineSource := none, resultHidden := true } := by
  have hm : st.page.map.isSome = true := hmap
  simp [toggleMeasure, clearMeasurement, ModeState.hasMap, hon, hm]

theorem onLayerClick_measure (f : Option HoverFeature) (st : ModeState)
    (h : st.measureMode = true) : onLayerClick f st = st := by
  simp [onLayerClick, h]

theorem toggleTaskSelection_frame (t : String) (st : ModeState) :
    (toggleTaskSelection t st).measurePoints = st.measurePoints ∧
      (toggleTaskSelection t st).measureClickRegistered = st.measureClickRegistered ∧
      (toggleTaskSelection t st).sidePanel = st.sidePanel ∧
      (toggleTaskSelection t st).layerClickHandlers = st.layerClickHandlers ∧
      (toggleTaskSelection t st).measureMode = st.measureMode ∧
      (toggleTaskSelection t st).page = st.page := by
  unfold toggleTaskSelection updateSelectionHighlight updateBulkActionsBar ModeState.hasMap
  simp only
  split_ifs <;> simp

theorem toggleTaskSelection_ids (t : String) (st : ModeState) :
    (toggleTaskSelection t st).selectedTaskIds =
      if t ∈ st.selectedTaskIds then st.selectedTaskIds.erase t
      else st.selectedTaskIds ++ [t] := by
  unfold toggleTaskSelection updateSelectionHighlight updateBulkActionsBar ModeState.hasMap
  simp only
  split_ifs <;> simp_all

theorem onLayerClick_frame (f : Option HoverFeature) (st : ModeState) :
    (onLayerClick f st).measurePoints = st.measurePoints ∧
      (onLayerClick f st).measureClickRegistered = st.measureClickRegistered ∧
      (onLayerClick f st).layerClickHandlers = st.layerClickHandlers ∧
      (onLayerClick f st).measureMode = st.measureMode ∧
      (onLayerClick f st).page = st.page := by
  cases f with
  | none =>
    unfold onLayerClick
    split_ifs <;> exact ⟨rfl, rfl, rfl, rfl, rfl⟩
  | some g =>
    unfold onLayerClick
    by_cases hm : st.measureMode = true
    · rw [if_pos hm]
      exact ⟨rfl, rfl, rfl, rfl, rfl⟩
    · rw [if_neg hm]
      by_cases hs : st.selectMode = true
      · simp only [hs, if_true]
        obtain ⟨h1, h2, _, h4, h5, h6⟩ := toggleTaskSelection_frame g.taskId st
        exact ⟨h1, h2, h4, h5, h6⟩
      · simp only [hs, if_false]
        exact ⟨rfl, rfl, rfl, rfl, rfl⟩

theorem iterate_onLayerClick_frame (f : Option HoverFeature) (n : Nat) (st : ModeState) :
    (Nat.iterate (onLayerClick f) n st).measurePoints = st.measurePoints ∧
      (Nat.iterate (onLayerClick f) n st).measureClickRegistered = st.measureClickRegistered ∧
      (Nat.iterate (onLayerClick f) n st).layerClickHandlers = st.layerClickHandlers ∧
      (Nat.iterate (onLayerClick f) n st).measureMode = st.measureMode ∧
      (Nat.iterate (onLayerClick f) n st).page = st.page := by
  induction n generalizing st with
  | zero => exact ⟨rfl, rfl, rfl, rfl, rfl⟩
  | succ n ih =>
    obtain ⟨a1, a2, a3, a4, a5⟩ := ih (onLayerClick f st)
    obtain ⟨b1, b2, b3, b4, b5⟩ := onLayerClick_frame f st
    exact ⟨a1.trans b1, a2.trans b2, a3.trans b3, a4.trans b4, a5.trans b5⟩

/-- C11 (as stated, refuted): with BulkSelect active and task `t1` selected, entering Measure
does not empty the Selection Set. -/
theorem entering_measure_leaves_selection_set :
    ¬ ∀ st : ModeState, st.hasMap = true → st.selectMode = true → st.measureMode = false →
        ∃ st1, toggleMeasure st = .ok st1 ∧ st1.selectedTaskIds = [] ∧
          st1.selectMode = false ∧
          (∀ x, (st1.spansSelectHighlight.map (fun f => f.accepts x)).getD false = false) := by
  intro h
  obtain ⟨st1, h1, h2, _, _⟩ := h selectingModes rfl rfl rfl
  rw [toggleMeasure_on selectingModes rfl rfl] at h1
  have e := Except.ok.inj h1
  rw [← e] at h2
  exact absurd h2 (by decide)

/-- C11 (amended): entering Measure while BulkSelect is active changes neither the Selection
Set, nor the selection-highlight filters, nor the bulk-actions bar, and BulkSelect stays
active; while both are active the click handlers of the interactive layers do nothing, so a
click on a feature is claimed by Measure alone. -/
theorem entering_measure_keeps_select_mode (st : ModeState) (hmap : st.hasMap = true)
    (hsel : st.selectMode = true) (hoff : st.measureMode = false) :
    ∃ st1, toggleMeasure st = .ok st1 ∧ st1.measureMode = true ∧ st1.selectMode = true ∧
      st1.selectedTaskIds = st.selectedTaskIds ∧
      st1.spansSelectHighlight = st.spansSelectHighlight ∧
      st1.nodesSelectHighlight = st.nodesSelectHighlight ∧
      st1.dropsSelectHighlight = st.dropsSelectHighlight ∧
      st1.bulkBarHidden = st.bulkBarHidden ∧
      (∀ f, onLayerClick f st1 = st1) :=
  ⟨_, toggleMeasure_on st hmap hoff, rfl, hsel, rfl, rfl, rfl, rfl, rfl,
    fun f => onLayerClick_measure f _ rfl⟩

theorem entering_measure_keeps_select_mode_witness :
    selectingModes.hasMap = true ∧ selectingModes.selectMode = true ∧
      selectingModes.measureMode = false ∧
      ∃ st1, toggleMeasure selectingModes = .ok st1 ∧ st1.selectMode = true ∧
        st1.selectedTaskIds = ["t1"] :=
  ⟨rfl, rfl, rfl,
    let ⟨st1, h1, _, h3, h4, _⟩ := entering_measure_keeps_select_mode selectingModes rfl rfl rfl
    ⟨st1, h1, h3, h4⟩⟩

theorem onMeasureClick_ok (turf : Turf) (pos : LngLat) (st : ModeState)
    (hmap : st.hasMap = true) :
    ∃ st1, onMeasureClick turf pos st = .ok st1 ∧
      st1.measurePoints = st.measurePoints ++ [pos] ∧
      st1.selectedTaskIds = st.selectedTaskIds ∧ st1.sidePanel = st.sidePanel ∧
      st1.measurePointsSource = some (st.measurePoints ++ [pos]) ∧
      st1.page = st.page := by
  have hm : st.page.map.isSome = true := hmap
  unfold onMeasureClick
  simp only [ModeState.hasMap, hm, if_true]
  cases st.measurePointsSource <;> cases st.measureLineSource <;> simp only <;>
    split_ifs <;> exact ⟨_, rfl, rfl, rfl, rfl, rfl, rfl⟩

/-- C12: with one click handler per interactive layer and `onMeasureClick` registered
exactly while Measure is active, a click on a feature has exactly one of three effects.  In
Measure the clicked coordinate is appended to the session, and selection and panel are
untouched.  Otherwise, in BulkSelect the membership of the feature's id in the Selection Set
is flipped, and session and panel are untouched.  Otherwise the detail panel opens on the
feature, and session and selection are untouched. -/
theorem click_claimed_by_one_mode (turf : Turf) (st : ModeState) (f : HoverFeature)
    (pos : LngLat) (hmap : st.hasMap = true) (hone : st.layerClickHandlers = 1)
    (hreg : st.measureClickRegistered = st.measureMode)
    (hnd : st.selectedTaskIds.Nodup) :
    ∃ st1, mapClick turf f pos st = .ok st1 ∧
      (st.measureMode = true →
        st1.measurePoints = st.measurePoints ++ [pos] ∧
        st1.selectedTaskIds = st.selectedTaskIds ∧ st1.sidePanel = st.sidePanel) ∧
      (st.measureMode = false → st.selectMode = true →
        st1.measurePoints = st.measurePoints ∧
        (∀ x, x ∈ st1.selectedTaskIds ↔
          (x ≠ f.taskId ∧ x ∈ st.selectedTaskIds) ∨
            (x = f.taskId ∧ f.taskId ∉ st.selectedTaskIds)) ∧
        st1.sidePanel = st.sidePanel) ∧
      (st.measureMode = false → st.selectMode = false →
        st1.measurePoints = st.measurePoints ∧
        st1.selectedTaskIds = st.selectedTaskIds ∧ st1.sidePanel = some f.taskId) := by
  have hit : Nat.iterate (onLayerClick (some f)) st.layerClickHandlers st =
      onLayerClick (some f) st := by rw [hone]; rfl
  unfold mapClick
  simp only [hit]
  obtain ⟨_, k2, _, _, _⟩ := onLayerClick_frame (some f) st
  by_cases hm : st.measureMode = true
  · have e : onLayerClick (some f) st = st := onLayerClick_measure _ st hm
    rw [e, hreg, if_pos hm]
    obtain ⟨st1, h1, h2, h3, h4, _⟩ := onMeasureClick_ok turf pos st hmap
    refine ⟨st1, h1, ?_, ?_, ?_⟩
    · exact fun _ => ⟨h2, h3, h4⟩
    · intro h
      rw [hm] at h
      cases h
    · intro h
      rw [hm] at h
      cases h
  · rw [k2, hreg, if_neg hm]
    have hm : st.measureMode = false := by simpa using hm
    refine ⟨_, rfl, ?_, fun _ hs => ?_, fun _ hs => ?_⟩
    · intro h
      rw [hm] at h
      cases h
    · have e : onLayerClick (some f) st = toggleTaskSelection f.taskId st := by
        simp [onLayerClick, hm, hs]
      rw [e]
      obtain ⟨a1, _, a3, _⟩ := toggleTaskSelection_frame f.taskId st
      refine ⟨a1, ?_, a3⟩
      intro x
      rw [toggleTaskSelection_ids]
      by_cases hin : f.taskId ∈ st.selectedTaskIds
      · rw [if_pos hin, hnd.mem_erase_iff]
        constructor
        · rintro ⟨h1, h2⟩
          exact Or.inl ⟨h1, h2⟩
        · rintro (⟨h1, h2⟩ | ⟨_, h2⟩)
          · exact ⟨h1, h2⟩
          · exact absurd hin h2
      · rw [if_neg hin, List.mem_append, List.mem_singleton]
        constructor
        · rintro (h | h)
          · exact Or.inl ⟨fun hx => hin (hx ▸ h), h⟩
          · exact Or.inr ⟨h, hin⟩
        · rintro (⟨_, h2⟩ | ⟨h1, _⟩)
          · exact Or.inl h2
          · exact Or.inr h1
    · have e : onLayerClick (some f) st = openSidePanel f st := by
        simp [onLayerClick, hm, hs]
      rw [e]
      exact ⟨rfl, rfl, rfl⟩

theorem click_claimed_by_one_mode_witness :
    selectingModes.hasMap = true ∧ selectingModes.layerClickHandlers = 1 ∧
      selectingModes.measureClickRegistered = selectingModes.measureMode ∧
      selectingModes.selectedTaskIds.Nodup ∧
      ∃ st1, mapClick (geometryUtilities triangleDist triangleArea) ⟨4, "t2"⟩ (1, 1)
          selectingModes = .ok st1 ∧
        st1.measurePoints = selectingModes.measurePoints ∧
        st1.sidePanel = selectingModes.sidePanel :=
  ⟨rfl, rfl, rfl, by decide,
    let ⟨st1, h1, _, h3, _⟩ :=
      click_claimed_by_one_mode (geometryUtilities triangleDist triangleArea) selectingModes
        ⟨4, "t2"⟩ (1, 1) rfl rfl rfl (by decide)
    ⟨st1, h1, (h3 rfl rfl).1, (h3 rfl rfl).2.2⟩⟩

theorem mapClicks_unregistered (turf : Turf) (clicks : List (HoverFeature × LngLat)) :
    ∀ st : ModeState, st.measureClickRegistered = false →
      ∃ st1, mapClicks turf st clicks = .ok st1 ∧ st1.measurePoints = st.measurePoints ∧
        st1.measureClickRegistered = false := by
  induction clicks with
  | nil => exact fun st h => ⟨st, rfl, rfl, h⟩
  | cons c rest ih =>
    intro st h
    obtain ⟨f, pos⟩ := c
    obtain ⟨a1, a2, _, _, _⟩ := iterate_onLayerClick_frame (some f) st.layerClickHandlers st
    have e : mapClick turf f pos st =
        .ok (Nat.iterate (onLayerClick (some f)) st.layerClickHandlers st) := by
      unfold mapClick
      simp only [a2, h, Bool.false_eq_true, if_false]
    obtain ⟨st1, h1, h2, h3⟩ := ih _ (a2.trans h)
    refine ⟨st1, ?_, h2.trans a1, h3⟩
    simp only [mapClicks, e, h1]

/-- C13: leaving Measure (with the map present) empties the measurement session, removes the
`measure-points` and `measure-line` sources and their layers, hides the result banner and
unregisters `onMeasureClick`; whatever clicks on features follow, no point is appended. -/
theorem leaving_measure_clears_session (turf : Turf) (st : ModeState)
    (hmap : st.hasMap = true) (hon : st.measureMode = true) :
    ∃ st1, toggleMeasure st = .ok st1 ∧ st1.measureMode = false ∧
      st1.measurePoints = [] ∧
      st1.measurePointsSource = none ∧ st1.measurePointsLayer = false ∧
      st1.measureLineSource = none ∧ st1.measureLineLayer = false ∧
      st1.resultHidden = true ∧ st1.measureClickRegistered = false ∧
      (∀ clicks, ∃ st2, mapClicks turf st1 clicks = .ok st2 ∧ st2.measurePoints = []) := by
  refine ⟨_, toggleMeasure_off st hmap hon, rfl, rfl, rfl, rfl, rfl, rfl, rfl, rfl, ?_⟩
  intro clicks
  obtain ⟨st2, h1, h2, _⟩ := mapClicks_unregistered turf clicks
    { st with
      measureMode := false, btnMeasureActive := false, cursor := "",
      measureClickRegistered := false, measurePoints := [],
      measurePointsLayer := false, measurePointsSource := none,
      measureLineLayer := false, measureLineSource := none, resultHidden := true } rfl
  exact ⟨st2, h1, h2⟩

theorem leaving_measure_clears_session_witness :
    measuringModes.hasMap = true ∧ measuringModes.measureMode = true ∧
      measuringModes.measurePoints = [cornerA, cornerB] ∧
      ∃ st1, toggleMeasure measuringModes = .ok st1 ∧ st1.measurePoints = [] ∧
        st1.measureLineSource = none ∧ st1.resultHidden = true ∧
        st1.measureClickRegistered = false :=
  ⟨rfl, rfl, rfl,
    let ⟨st1, h1, _, h3, _, _, h6, _, h8, h9, _⟩ :=
      leaving_measure_clears_session (geometryUtilities triangleDist triangleArea)
        measuringModes rfl rfl
    ⟨st1, h1, h3, h6, h8, h9⟩⟩

theorem clearSelection_fields (st : ModeState) :
    (clearSelection st).selectedTaskIds = [] ∧ (clearSelection st).bulkBarHidden = true ∧
      (clearSelection st).bulkStatusSelect = "" ∧
      (clearSelection st).selectMode = st.selectMode ∧
      (st.hasMap = true →
        (clearSelection st).spansSelectHighlight = some (.eqId "__none__") ∧
        (clearSelection st).nodesSelectHighlight = some (.eqId "__none__") ∧
        (clearSelection st).dropsSelectHighlight = some (.eqId "__none__")) ∧
      (st.hasMap = false →
        (clearSelection st).spansSelectHighlight = st.spansSelectHighlight ∧
        (clearSelection st).nodesSelectHighlight = st.nodesSelectHighlight ∧
        (clearSelection st).dropsSelectHighlight = st.dropsSelectHighlight) := by
  unfold clearSelection updateSelectionHighlight updateBulkActionsBar ModeState.hasMap
    selectionFilter
  by_cases hm : st.page.map.isSome = true <;> simp [hm]

/-- C14: leaving BulkSelect empties the Selection Set, hides the bulk-actions bar and clears
the target-status choice; with the map present each selection-highlight layer gets the filter
`id == '__none__'`, which accepts an id only if it is that sentinel string, hence no id that
was selected other than the sentinel. -/
theorem leaving_select_clears_selection (st : ModeState) (hon : st.selectMode = true) :
    (toggleSelectMode st).selectMode = false ∧
      (toggleSelectMode st).selectedTaskIds = [] ∧
      (toggleSelectMode st).bulkBarHidden = true ∧
      (toggleSelectMode st).bulkStatusSelect = "" ∧
      (st.hasMap = true →
        (toggleSelectMode st).spansSelectHighlight = some (.eqId "__none__") ∧
        (toggleSelectMode st).nodesSelectHighlight = some (.eqId "__none__") ∧
        (toggleSelectMode st).dropsSelectHighlight = some (.eqId "__none__")) ∧
      (∀ x, (IdFilter.eqId "__none__").accepts x = true ↔ x = "__none__") ∧
      (∀ x ∈ st.selectedTaskIds, x ≠ "__none__" →
        (IdFilter.eqId "__none__").accepts x = false) := by
  have e : toggleSelectMode st = clearSelection { st with
      selectMode := false, btnSelectActive := false,
      cursor := if st.hasMap then "" else st.cursor } := by
    simp [toggleSelectMode, hon, ModeState.hasMap]
  rw [e]
  obtain ⟨h1, h2, h3, h4, h5, _⟩ := clearSelection_fields { st with
      selectMode := false, btnSelectActive := false,
      cursor := if st.hasMap then "" else st.cursor }
  refine ⟨h4, h1, h2, h3, h5, ?_, ?_⟩
  · intro x
    simp [IdFilter.accepts]
  · intro x _ hx
    simp [IdFilter.accepts, hx]

theorem leaving_select_clears_selection_witness :
    selectingModes.selectMode = true ∧ selectingModes.selectedTaskIds = ["t1"] ∧
      selectingModes.spansSelectHighlight = some (.inIds ["t1"]) ∧
      (toggleSelectMode selectingModes).selectedTaskIds = [] ∧
      (toggleSelectMode selectingModes).bulkBarHidden = true :=
  ⟨rfl, rfl, rfl, (leaving_select_clears_selection selectingModes rfl).2.1,
    (leaving_select_clears_selection selectingModes rfl).2.2.1⟩

theorem onMeasureClick_result (turf : Turf) (pos : LngLat) (st : ModeState)
    (hmap : st.hasMap = true) :
    ∃ st1, onMeasureClick turf pos st = .ok st1 ∧
      st1.measurePoints = st.measurePoints ++ [pos] ∧
      (2 ≤ (st.measurePoints ++ [pos]).length →
        st1.resultHidden = false ∧
        st1.resultText = .measured (turf.length (st.measurePoints ++ [pos]) * 3280.84)
          (turf.length (st.measurePoints ++ [pos]) * 1000)
          (if 3 ≤ (st.measurePoints ++ [pos]).length then
            some (turf.area ((st.measurePoints ++ [pos]) ++ (st.measurePoints ++ [pos]).take 1)
              * 10.7639)
          else none)) ∧
      ((st.measurePoints ++ [pos]).length < 2 →
        st1.resultHidden = st.resultHidden ∧ st1.resultText = st.resultText) := by
  have hm : st.page.map.isSome = true := hmap
  unfold onMeasureClick
  simp only [ModeState.hasMap, hm, if_true]
  by_cases h2 : (st.measurePoints ++ [pos]).length ≥ 2
  · rw [if_pos h2]
    cases st.measurePointsSource <;> cases st.measureLineSource <;>
      exact ⟨_, rfl, rfl, fun _ => ⟨rfl, rfl⟩, fun h => absurd h2 (by omega)⟩
  · rw [if_neg h2]
    cases st.measurePointsSource <;>
      exact ⟨_, rfl, rfl, fun h => absurd h h2, fun _ => ⟨rfl, rfl⟩⟩

/-- C15: a click in Measure mode (map present) appends the clicked coordinate at the end of
the session.  If the session then has at least 2 points the banner is shown with the length
of the path through all points, and it carries an area exactly when there are at least 3
points, the area of the ring made of the session's points followed by the first one.  With
fewer than 2 points the banner is left as it was; so, when the banner did not show a
measured distance at the start of the session, it shows a distance exactly from 2 points on
and an area exactly from 3 points on. -/
theorem measure_click_appends_and_reports (turf : Turf) (st : ModeState) (pos : LngLat)
    (hmap : st.hasMap = true)
    (hclean : st.measurePoints = [] →
      ¬ (st.resultHidden = false ∧ ∃ d m a, st.resultText = .measured d m a)) :
    ∃ st1, onMeasureClick turf pos st = .ok st1 ∧
      st1.measurePoints = st.measurePoints ++ [pos] ∧
      (2 ≤ st1.measurePoints.length →
        st1.resultHidden = false ∧
        ∃ a, st1.resultText =
            .measured (turf.length st1.measurePoints * 3280.84)
              (turf.length st1.measurePoints * 1000) a ∧
          (a.isSome = true ↔ 3 ≤ st1.measurePoints.length) ∧
          (∀ x, a = some x → ∃ first, st1.measurePoints.head? = some first ∧
            x = turf.area (st1.measurePoints ++ [first]) * 10.7639)) ∧
      (st1.measurePoints.length < 2 →
        st1.resultHidden = st.resultHidden ∧ st1.resultText = st.resultText) ∧
      ((st1.resultHidden = false ∧ ∃ d m a, st1.resultText = .measured d m a) ↔
        2 ≤ st1.measurePoints.length) ∧
      ((st1.resultHidden = false ∧ ∃ d m x, st1.resultText = .measured d m (some x)) ↔
        3 ≤ st1.measurePoints.length) := by
  obtain ⟨st1, h1, h2, h3, h4⟩ := onMeasureClick_result turf pos st hmap
  rw [← h2] at h3 h4
  have hlen : st1.measurePoints.length = st.measurePoints.length + 1 := by
    rw [h2]; simp
  have htake : ∃ first, st1.measurePoints.head? = some first ∧
      st1.measurePoints.take 1 = [first] := by
    cases hp : st1.measurePoints with
    | nil => rw [hp] at hlen; simp at hlen
    | cons a t => exact ⟨a, rfl, rfl⟩
  refine ⟨st1, h1, h2, ?_, h4, ?_, ?_⟩
  · intro hge
    obtain ⟨k1, k2⟩ := h3 hge
    refine ⟨k1, _, k2, ?_, ?_⟩
    · by_cases h : 3 ≤ st1.measurePoints.length <;> simp [h]
    · intro x hx
      obtain ⟨first, hf1, hf2⟩ := htake
      refine ⟨first, hf1, ?_⟩
      by_cases h : 3 ≤ st1.measurePoints.length
      · rw [if_pos h, hf2] at hx
        exact (Option.some.inj hx).symm
      · rw [if_neg h] at hx
        cases hx
  · constructor
    · rintro ⟨hv, d, m, a, ht⟩
      by_contra hlt
      obtain ⟨k1, k2⟩ := h4 (by omega)
      have hnil : st.measurePoints = [] := by
        apply List.eq_nil_of_length_eq_zero
        omega
      exact hclean hnil ⟨k1 ▸ hv, d, m, a, k2 ▸ ht⟩
    · intro hge
      obtain ⟨k1, k2⟩ := h3 hge
      exact ⟨k1, _, _, _, k2⟩
  · constructor
    · rintro ⟨hv, d, m, x, ht⟩
      by_contra hlt
      by_cases hge : 2 ≤ st1.measurePoints.length
      · obtain ⟨_, k2⟩ := h3 hge
        rw [k2, if_neg hlt] at ht
        cases ht
      · obtain ⟨k1, k2⟩ := h4 (by omega)
        have hnil : st.measurePoints = [] := by
          apply List.eq_nil_of_length_eq_zero
          omega
        exact hclean hnil ⟨k1 ▸ hv, d, m, some x, k2 ▸ ht⟩
    · intro hge
      obtain ⟨k1, k2⟩ := h3 (by omega)
      rw [if_pos hge] at k2
      exact ⟨k1, _, _, _, k2⟩

theorem measure_click_appends_and_reports_witness :
    measuringModes.hasMap = true ∧
      (measuringModes.measurePoints = [] →
        ¬ (measuringModes.resultHidden = false ∧
          ∃ d m a, measuringModes.resultText = .measured d m a)) ∧
      ∃ st1, onMeasureClick (geometryUtilities triangleDist triangleArea) cornerC
          measuringModes = .ok st1 ∧
        st1.measurePoints = [cornerA, cornerB, cornerC] ∧
        ((st1.resultHidden = false ∧ ∃ d m x, st1.resultText = .measured d m (some x)) ↔
          3 ≤ st1.measurePoints.length) :=
  have hclean : measuringModes.measurePoints = [] →
      ¬ (measuringModes.resultHidden = false ∧
        ∃ d m a, measuringModes.resultText = .measured d m a) :=
    fun h => absurd h (by decide)
  ⟨rfl, hclean,
    let ⟨st1, h1, h2, _, _, _, h6⟩ :=
      measure_click_appends_and_reports (geometryUtilities triangleDist triangleArea)
        measuringModes cornerC rfl hclean
    ⟨st1, h1, h2, h6⟩⟩

/-! ## Measurement -/

theorem lineLength_le_append (dist : LngLat → LngLat → ℚ) (hd : ∀ a b, 0 ≤ dist a b)
    (p : LngLat) : ∀ pts : List LngLat, lineLength dist pts ≤ lineLength dist (pts ++ [p])
  | [] => by simp [lineLength]
  | [a] => by
    simp only [lineLength, List.singleton_append, add_zero]
    exact hd a p
  | a :: b :: rest => by
    have ih := lineLength_le_append dist hd p (b :: rest)
    rw [List.cons_append] at ih
    rw [List.cons_append, List.cons_append]
    show dist a b + lineLength dist (b :: rest) ≤
      dist a b + lineLength dist (b :: (rest ++ [p]))
    linarith

theorem measureClicks_result (turf : Turf) : ∀ (ps : List LngLat) (st : ModeState),
    st.hasMap = true → ps ≠ [] →
    ∃ st1, measureClicks turf st ps = .ok st1 ∧
      st1.measurePoints = st.measurePoints ++ ps ∧
      (2 ≤ (st.measurePoints ++ ps).length →
        st1.resultHidden = false ∧
        st1.resultText = .measured (turf.length (st.measurePoints ++ ps) * 3280.84)
          (turf.length (st.measurePoints ++ ps) * 1000)
          (if 3 ≤ (st.measurePoints ++ ps).length then
            some (turf.area ((st.measurePoints ++ ps) ++ (st.measurePoints ++ ps).take 1)
              * 10.7639)
          else none))
  | [], _, _, h => absurd rfl h
  | [p], st, hmap, _ => by
    obtain ⟨st1, h1, h2, h3, _⟩ := onMeasureClick_result turf p st hmap
    exact ⟨st1, by simp only [measureClicks, h1], h2, h3⟩
  | p :: q :: rest, st, hmap, _ => by
    obtain ⟨st1, h1, h2, _, _, _, h6⟩ := onMeasureClick_ok turf p st hmap
    have hmap1 : st1.hasMap = true := by
      unfold ModeState.hasMap at hmap ⊢
      rw [h6]
      exact hmap
    obtain ⟨st2, k1, k2, k3⟩ := measureClicks_result turf (q :: rest) st1 hmap1 (by simp)
    have e : st1.measurePoints ++ q :: rest = st.measurePoints ++ p :: q :: rest := by
      rw [h2]; simp
    rw [e] at k2 k3
    refine ⟨st2, ?_, k2, k3⟩
    rw [measureClicks]
    simp only [h1]
    exact k1

/-- C16: with the path length taken as the sum of non-negative segment distances, when a
session that already has a point receives two further clicks, the length reported after the
second of them (in feet and in metres) is at least the length reported after the first, which
was for a session of at least 2 points. -/
theorem reported_length_monotone (dist : LngLat → LngLat → ℚ) (area : List LngLat → ℚ)
    (hd : ∀ a b, 0 ≤ dist a b) (st : ModeState) (hmap : st.hasMap = true)
    (hlen : 1 ≤ st.measurePoints.length) (q p : LngLat) :
    ∃ st1 st2 d1 m1 a1 d2 m2 a2,
      onMeasureClick (geometryUtilities dist area) q st = .ok st1 ∧
      onMeasureClick (geometryUtilities dist area) p st1 = .ok st2 ∧
      2 ≤ st1.measurePoints.length ∧ st2.measurePoints = st1.measurePoints ++ [p] ∧
      st1.resultText = .measured d1 m1 a1 ∧ st2.resultText = .measured d2 m2 a2 ∧
      d1 = lineLength dist st1.measurePoints * 3280.84 ∧
      d2 = lineLength dist st2.measurePoints * 3280.84 ∧
      d1 ≤ d2 ∧ m1 ≤ m2 := by
  obtain ⟨st1, h1, h2, h3, _⟩ := onMeasureClick_result (geometryUtilities dist area) q st hmap
  obtain ⟨_, h1b, _, _, _, _, hpage⟩ := onMeasureClick_ok (geometryUtilities dist area) q st hmap
  have hst : st1.page = st.page := by
    rw [h1] at h1b
    cases h1b
    exact hpage
  have hmap1 : st1.hasMap = true := by
    unfold ModeState.hasMap at hmap ⊢
    rw [hst]
    exact hmap
  obtain ⟨st2, k1, k2, k3, _⟩ :=
    onMeasureClick_result (geometryUtilities dist area) p st1 hmap1
  have l1 : 2 ≤ (st.measurePoints ++ [q]).length := by simp; omega
  have l2 : 2 ≤ (st1.measurePoints ++ [p]).length := by rw [h2]; simp
  obtain ⟨_, t1⟩ := h3 l1
  obtain ⟨_, t2⟩ := k3 l2
  rw [← h2] at t1 l1
  rw [← k2] at t2
  have hmono := lineLength_le_append dist hd p st1.measurePoints
  rw [← k2] at hmono
  refine ⟨st1, st2, _, _, _, _, _, _, h1, k1, l1, k2, t1, t2, rfl, rfl, ?_, ?_⟩
  · simp only [geometryUtilities]
    have : (0 : ℚ) ≤ 3280.84 := by norm_num
    exact mul_le_mul_of_nonneg_right hmono this
  · simp only [geometryUtilities]
    have : (0 : ℚ) ≤ 1000 := by norm_num
    exact mul_le_mul_of_nonneg_right hmono this

theorem triangleDist_nonneg (a b : LngLat) : 0 ≤ triangleDist a b := by
  unfold triangleDist
  split_ifs <;> norm_num

theorem reported_length_monotone_witness :
    (∀ a b, 0 ≤ triangleDist a b) ∧ measuringModes.hasMap = true ∧
      1 ≤ measuringModes.measurePoints.length ∧
      ∃ st1 st2 d1 m1 a1 d2 m2 a2,
        onMeasureClick (geometryUtilities triangleDist triangleArea) cornerC measuringModes
          = .ok st1 ∧
        onMeasureClick (geometryUtilities triangleDist triangleArea) cornerA st1 = .ok st2 ∧
        st1.resultText = .measured d1 m1 a1 ∧ st2.resultText = .measured d2 m2 a2 ∧
        d1 ≤ d2 :=
  ⟨triangleDist_nonneg, rfl, by decide,
    let ⟨st1, st2, d1, m1, a1, d2, m2, a2, h1, h2, _, _, h5, h6, _, _, h9, _⟩ :=
      reported_length_monotone triangleDist triangleArea triangleDist_nonneg measuringModes
        rfl (by decide) cornerC cornerA
    ⟨st1, st2, d1, m1, a1, d2, m2, a2, h1, h2, h5, h6, h9⟩⟩

theorem three_clicks_result (dist : LngLat → LngLat → ℚ) (area : List LngLat → ℚ)
    (A B C : LngLat) (st : ModeState) (hmap : st.hasMap = true)
    (hempty : st.measurePoints = []) :
    ∃ st3, measureClicks (geometryUtilities dist area) st [A, B, C] = .ok st3 ∧
      st3.measurePoints = [A, B, C] ∧ st3.resultHidden = false ∧
      st3.resultText = .measured ((dist A B + dist B C) * 3280.84)
        ((dist A B + dist B C) * 1000) (some (area [A, B, C, A] * 10.7639)) := by
  obtain ⟨st3, h1, h2, h3⟩ :=
    measureClicks_result (geometryUtilities dist area) [A, B, C] st hmap (by simp)
  rw [hempty] at h2 h3
  obtain ⟨k1, k2⟩ := h3 (by simp)
  refine ⟨st3, h1, h2, k1, ?_⟩
  rw [k2]
  simp [geometryUtilities, lineLength]

theorem triangleDist_sides :
    triangleDist cornerA cornerB = 300 / 3280.84 ∧
      triangleDist cornerB cornerC = 400 / 3280.84 ∧
      triangleDist cornerA cornerC = 500 / 3280.84 := by
  refine ⟨?_, ?_, ?_⟩
  · unfold triangleDist
    rw [if_pos (by decide)]
  · unfold triangleDist
    rw [if_neg (by decide), if_pos (by decide)]
  · unfold triangleDist
    rw [if_neg (by decide), if_neg (by decide), if_pos (by decide)]

/-- C17 (as stated, refuted): for the triangle `cornerA cornerB cornerC` with sides of 300,
400 and 500 ft and an area of 60,000 sq ft, the three clicks do not report a length within
1% of 500 ft. -/
theorem triangle_length_is_not_hypotenuse :
    ¬ ∀ (dist : LngLat → LngLat → ℚ) (area : List LngLat → ℚ) (A B C : LngLat)
        (st : ModeState), st.hasMap = true → st.measurePoints = [] →
        (297 ≤ dist A B * 3280.84 ∧ dist A B * 3280.84 ≤ 303) →
        (396 ≤ dist B C * 3280.84 ∧ dist B C * 3280.84 ≤ 404) →
        (495 ≤ dist A C * 3280.84 ∧ dist A C * 3280.84 ≤ 505) →
        (59400 ≤ area [A, B, C, A] * 10.7639 ∧ area [A, B, C, A] * 10.7639 ≤ 60600) →
        ∃ st3 d m a, measureClicks (geometryUtilities dist area) st [A, B, C] = .ok st3 ∧
          st3.resultText = .measured d m (some a) ∧
          (495 ≤ d ∧ d ≤ 505) ∧ (59400 ≤ a ∧ a ≤ 60600) := by
  intro h
  obtain ⟨hAB, hBC, hAC⟩ := triangleDist_sides
  obtain ⟨st3, d, m, a, h1, h2, ⟨_, h3⟩, _⟩ :=
    h triangleDist triangleArea cornerA cornerB cornerC loadedModes rfl rfl
      (by rw [hAB]; norm_num) (by rw [hBC]; norm_num) (by rw [hAC]; norm_num)
      (by simp only [triangleArea]; norm_num)
  obtain ⟨st4, k1, _, _, k4⟩ :=
    three_clicks_result triangleDist triangleArea cornerA cornerB cornerC loadedModes rfl rfl
  rw [k1] at h1
  cases h1
  rw [k4] at h2
  injection h2 with e1 _ _
  rw [← e1, hAB, hBC] at h3
  norm_num at h3

/-- C17 (amended): with the path length taken as the sum of the segment distances, three
clicks `A`, `B`, `C` on an empty session, where `A`-`B` is within 1% of 300 ft and `B`-`C`
within 1% of 400 ft, report the length of the open path `A`, `B`, `C`: within 1% of 700 ft
and not within 1% of 500 ft.  The reported area is 10.7639 times the area utility's value
for the ring `A`, `B`, `C`, `A`, hence within 1% of 60,000 sq ft when that value is. -/
theorem triangle_reports_path_length (dist : LngLat → LngLat → ℚ) (area : List LngLat → ℚ)
    (A B C : LngLat) (st : ModeState) (hmap : st.hasMap = true)
    (hempty : st.measurePoints = [])
    (hAB : 297 ≤ dist A B * 3280.84 ∧ dist A B * 3280.84 ≤ 303)
    (hBC : 396 ≤ dist B C * 3280.84 ∧ dist B C * 3280.84 ≤ 404)
    (harea : 59400 ≤ area [A, B, C, A] * 10.7639 ∧ area [A, B, C, A] * 10.7639 ≤ 60600) :
    ∃ st3 d m a, measureClicks (geometryUtilities dist area) st [A, B, C] = .ok st3 ∧
      st3.resultHidden = false ∧ st3.resultText = .measured d m (some a) ∧
      d = (dist A B + dist B C) * 3280.84 ∧
      (693 ≤ d ∧ d ≤ 707) ∧ ¬ (495 ≤ d ∧ d ≤ 505) ∧
      a = area [A, B, C, A] * 10.7639 ∧ (59400 ≤ a ∧ a ≤ 60600) := by
  obtain ⟨st3, h1, _, h3, h4⟩ := three_clicks_result dist area A B C st hmap hempty
  have e : (dist A B + dist B C) * 3280.84 = dist A B * 3280.84 + dist B C * 3280.84 := by
    ring
  refine ⟨st3, _, _, _, h1, h3, h4, rfl, ?_, ?_, rfl, harea⟩
  · rw [e]
    constructor <;> linarith [hAB.1, hAB.2, hBC.1, hBC.2]
  · rw [e]
    rintro ⟨_, h⟩
    linarith [hAB.1, hBC.1]

theorem triangle_reports_path_length_witness :
    loadedModes.hasMap = true ∧ loadedModes.measurePoints = [] ∧
      (297 ≤ triangleDist cornerA cornerB * 3280.84 ∧
        triangleDist cornerA cornerB * 3280.84 ≤ 303) ∧
      (396 ≤ triangleDist cornerB cornerC * 3280.84 ∧
        triangleDist cornerB cornerC * 3280.84 ≤ 404) ∧
      (59400 ≤ triangleArea [cornerA, cornerB, cornerC, cornerA] * 10.7639 ∧
        triangleArea [cornerA, cornerB, cornerC, cornerA] * 10.7639 ≤ 60600) ∧
      ∃ st3 d m a, measureClicks (geometryUtilities triangleDist triangleArea) loadedModes
          [cornerA, cornerB, cornerC] = .ok st3 ∧
        st3.resultText = .measured d m (some a) ∧ (693 ≤ d ∧ d ≤ 707) :=
  have hAB : 297 ≤ triangleDist cornerA cornerB * 3280.84 ∧
      triangleDist cornerA cornerB * 3280.84 ≤ 303 := by
    rw [triangleDist_sides.1]
    norm_num
  have hBC : 396 ≤ triangleDist cornerB cornerC * 3280.84 ∧
      triangleDist cornerB cornerC * 3280.84 ≤ 404 := by
    rw [triangleDist_sides.2.1]
    norm_num
  have harea : 59400 ≤ triangleArea [cornerA, cornerB, cornerC, cornerA] * 10.7639 ∧
      triangleArea [cornerA, cornerB, cornerC, cornerA] * 10.7639 ≤ 60600 := by
    simp only [triangleArea]
    norm_num
  ⟨rfl, rfl, hAB, hBC, harea,
    let ⟨st3, d, m, a, h1, _, h3, _, h5, _⟩ :=
      triangle_reports_path_length triangleDist triangleArea cornerA cornerB cornerC
        loadedModes rfl rfl hAB hBC harea
    ⟨st3, d, m, a, h1, h3, h5⟩⟩

/-! ## Viewport reload -/

/-- C18 (as stated, refuted): at zoom 5 with project `p1` selected, the timer callback issues
a reload request although the zoom does not exceed 10. -/
theorem timer_reloads_below_zoom_threshold :
    ¬ ∀ (page : PageState) (m : MapState), page.map = some m →
        ((moveEndCallback page).isSome = true ↔ page.projectSelect ≠ "" ∧ m.zoom > 10) := by
  intro h
  have h1 := (h zoomedOutPage { panMap with zoom := 5 } rfl).1 (by decide)
  exact absurd h1.2 (by decide)

/-- C18 (amended): when the debounce timer fires (the map exists), a reload request is issued
exactly when the project selection is non-empty; the request carries the viewport bounds as
`bbox` parameter, in the order west, south, east, north, exactly when the zoom exceeds 10,
and carries no `bbox` parameter otherwise. -/
theorem timer_reload_request (page : PageState) (m : MapState) (hmap : page.map = some m) :
    ((moveEndCallback page).isSome = true ↔ page.projectSelect ≠ "") ∧
      (∀ req, moveEndCallback page = some req →
        req.projectId = page.projectSelect ∧
        (req.bbox.isSome = true ↔ m.zoom > 10) ∧
        (m.zoom > 10 →
          QueryParam.bbox [m.bounds.west, m.bounds.south, m.bounds.east, m.bounds.north]
            ∈ req.params) ∧
        (¬ m.zoom > 10 → ∀ vals, QueryParam.bbox vals ∉ req.params)) := by
  unfold moveEndCallback loadMapDataRequest
  by_cases hp : page.projectSelect = ""
  · simp [hp]
  · simp only [hp, if_false, hmap, Option.isSome_some, ne_eq, not_false_eq_true, true_and,
      Option.some.injEq, iff_self]
    intro req hreq
    subst hreq
    by_cases hz : m.zoom > 10
    · simp [hz, Request.params]
    · simp only [hz, Request.params]
      refine ⟨by simp, by simp, fun h => absurd h (by simp), ?_⟩
      intro _ vals
      cases (if page.statusFilter = "" then none else some page.statusFilter) <;> simp

theorem timer_reload_request_witness :
    panPage.map = some panMap ∧
      ∃ req, moveEndCallback panPage = some req ∧
        QueryParam.bbox [0, 0, 10, 10] ∈ req.params :=
  ⟨rfl, ⟨"p1", none, some ⟨0, 0, 10, 10⟩⟩, by decide,
    ((timer_reload_request panPage panMap rfl).2 _ (by decide)).2.2.1 (by decide)⟩

theorem settled_initial (page : PageState) : (ViewportState.initial page).Settled :=
  ⟨Nat.one_pos, Or.inl rfl⟩

theorem onMoveEnd_pending (v : ViewportState) (h : v.Settled) :
    (onMoveEnd v).pendingTimers = [v.nextTimerId] ∧ (onMoveEnd v).Settled ∧
      (onMoveEnd v).firings = v.firings ∧ (onMoveEnd v).issued = v.issued ∧
      (onMoveEnd v).page = v.page := by
  obtain ⟨hpos, hp⟩ := h
  have key : (onMoveEnd v).pendingTimers = [v.nextTimerId] := by
    unfold onMoveEnd
    rcases hp with hnil | ⟨t, ht0, ht1, ht2⟩
    · cases hm : v.moveEndTimer with
      | none => simp [hnil]
      | some t =>
        simp only [hnil]
        split_ifs <;> simp
    · simp [ht1, ht2, ht0]
  refine ⟨key, ⟨Nat.succ_pos _, Or.inr ⟨v.nextTimerId, Nat.pos_iff_ne_zero.1 hpos, rfl, key⟩⟩,
    rfl, rfl, rfl⟩

theorem onTimeout_settled (id : Nat) (v : ViewportState) (h : v.Settled) :
    (onTimeout id v).Settled ∧ (onTimeout id v).page = v.page ∧
      (id ∈ v.pendingTimers →
        (onTimeout id v).pendingTimers = [] ∧ (onTimeout id v).firings = v.firings + 1 ∧
        (onTimeout id v).issued.length ≤ v.issued.length + 1) ∧
      (id ∉ v.pendingTimers → onTimeout id v = v) := by
  obtain ⟨hpos, hp⟩ := h
  unfold onTimeout
  by_cases hin : id ∈ v.pendingTimers
  · rw [if_pos hin]
    have hnil : v.pendingTimers.erase id = [] := by
      rcases hp with hnil | ⟨t, _, _, ht2⟩
      · rw [hnil] at hin; cases hin
      · rw [ht2] at hin ⊢
        rw [List.mem_singleton.1 hin]
        simp
    refine ⟨⟨hpos, Or.inl hnil⟩, rfl, fun _ => ⟨hnil, rfl, ?_⟩, fun h => absurd hin h⟩
    simp only [List.length_append]
    cases moveEndCallback v.page <;> simp
  · rw [if_neg hin]
    exact ⟨⟨hpos, hp⟩, rfl, fun h => absurd h hin, fun _ => rfl⟩

theorem runViewport_settled (evs : List ViewportEvent) :
    ∀ v : ViewportState, v.Settled → (runViewport v evs).Settled := by
  induction evs with
  | nil => exact fun v h => h
  | cons e rest ih =>
    intro v h
    cases e with
    | moveend => exact ih _ (onMoveEnd_pending v h).2.1
    | timeout id => exact ih _ (onTimeout_settled id v h).1

theorem settled_length (v : ViewportState) (h : v.Settled) : v.pendingTimers.length ≤ 1 := by
  rcases h.2 with hnil | ⟨t, _, _, ht⟩
  · rw [hnil]; exact Nat.zero_le _
  · rw [ht]; exact Nat.le_refl _

theorem runViewport_moveends (k : Nat) : ∀ v : ViewportState, v.Settled →
    (runViewport v (List.replicate (k + 1) .moveend)).pendingTimers = [v.nextTimerId + k] ∧
      (runViewport v (List.replicate (k + 1) .moveend)).Settled ∧
      (runViewport v (List.replicate (k + 1) .moveend)).firings = v.firings ∧
      (runViewport v (List.replicate (k + 1) .moveend)).issued = v.issued := by
  induction k with
  | zero =>
    intro v h
    obtain ⟨h1, h2, h3, h4, _⟩ := onMoveEnd_pending v h
    exact ⟨h1, h2, h3, h4⟩
  | succ k ih =>
    intro v h
    obtain ⟨_, h2, h3, h4, _⟩ := onMoveEnd_pending v h
    obtain ⟨k1, k2, k3, k4⟩ := ih (onMoveEnd v) h2
    have e : (onMoveEnd v).nextTimerId + k = v.nextTimerId + (k + 1) := by
      show v.nextTimerId + 1 + k = v.nextTimerId + (k + 1)
      omega
    rw [e] at k1
    exact ⟨k1, k2, k3.trans h3, k4.trans h4⟩

theorem runViewport_timeouts (ts : List Nat) : ∀ (w : ViewportState), w.Settled →
    (runViewport w (ts.map .timeout)).firings ≤ w.firings + w.pendingTimers.length ∧
      (runViewport w (ts.map .timeout)).issued.length ≤
        w.issued.length + w.pendingTimers.length ∧
      (∀ id, w.pendingTimers = [id] → id ∈ ts →
        (runViewport w (ts.map .timeout)).firings = w.firings + 1 ∧
        (runViewport w (ts.map .timeout)).pendingTimers = []) := by
  induction ts with
  | nil =>
    intro w _
    exact ⟨Nat.le_add_right _ _, Nat.le_add_right _ _, fun id _ h => by cases h⟩
  | cons t rest ih =>
    intro w h
    obtain ⟨s1, _, s3, s4⟩ := onTimeout_settled t w h
    obtain ⟨i1, i2, i3⟩ := ih (onTimeout t w) s1
    have hrun : runViewport w ((t :: rest).map .timeout) =
        runViewport (onTimeout t w) (rest.map .timeout) := rfl
    rw [hrun]
    by_cases hin : t ∈ w.pendingTimers
    · obtain ⟨a1, a2, a3⟩ := s3 hin
      rw [a1, a2] at i1
      rw [a1] at i2
      have hlen : 1 ≤ w.pendingTimers.length := List.length_pos_of_mem hin
      refine ⟨by simp at i1; omega, by simp at i2; omega, ?_⟩
      intro id hid _
      simp only [a1, List.length_nil, Nat.add_zero] at i1
      have hge : w.firings + 1 ≤ (runViewport (onTimeout t w) (rest.map .timeout)).firings := by
        have mono : ∀ (l : List Nat) (u : ViewportState),
            u.firings ≤ (runViewport u (l.map .timeout)).firings := by
          intro l
          induction l with
          | nil => exact fun u => Nat.le_refl _
          | cons x xs ihx =>
            intro u
            have hx : runViewport u ((x :: xs).map .timeout) =
                runViewport (onTimeout x u) (xs.map .timeout) := rfl
            rw [hx]
            refine Nat.le_trans ?_ (ihx _)
            unfold onTimeout
            split_ifs
            · exact Nat.le_succ _
            · exact Nat.le_refl _
        have := mono rest (onTimeout t w)
        rw [a2] at this
        exact this
      refine ⟨Nat.le_antisymm i1 hge, ?_⟩
      have hs := runViewport_settled (rest.map .timeout) _ s1
      have hz : (runViewport (onTimeout t w) (rest.map .timeout)).pendingTimers.length = 0 := by
        have pmono : ∀ (l : List Nat) (u : ViewportState), u.pendingTimers = [] →
            (runViewport u (l.map .timeout)).pendingTimers = [] := by
          intro l
          induction l with
          | nil => exact fun u hu => hu
          | cons x xs ihx =>
            intro u hu
            have hx : runViewport u ((x :: xs).map .timeout) =
                runViewport (onTimeout x u) (xs.map .timeout) := rfl
            rw [hx]
            apply ihx
            unfold onTimeout
            rw [if_neg (by rw [hu]; simp)]
            exact hu
        rw [pmono rest _ a1]
        rfl
      exact List.eq_nil_of_length_eq_zero hz
    · have e := s4 hin
      rw [e] at i1 i2 i3 ⊢
      refine ⟨i1, i2, ?_⟩
      intro id hid hmem
      rcases List.mem_cons.1 hmem with rfl | hr
      · rw [hid] at hin
        exact absurd (List.mem_singleton.2 rfl) hin
      · exact i3 id hid hr

/-- C19: in every state reached from map creation by view-settled events and timer
expiries at most one reload timer is pending.  After `k + 1` view-settled events with no
expiry in between exactly one timer is pending (the last one set) and none has fired
meanwhile; whatever timers come due afterwards, at most one firing and at most one reload
request result, and exactly one firing once the pending timer is among them. -/
theorem at_most_one_reload_timer (page : PageState) (evs : List ViewportEvent) (k : Nat)
    (ts : List Nat) (v w u : ViewportState)
    (hv : v = runViewport (ViewportState.initial page) evs)
    (hw : w = runViewport v (List.replicate (k + 1) .moveend))
    (hu : u = runViewport w (ts.map .timeout)) :
    v.pendingTimers.length ≤ 1 ∧
      w.pendingTimers = [v.nextTimerId + k] ∧ w.firings = v.firings ∧ w.issued = v.issued ∧
      u.firings ≤ v.firings + 1 ∧ u.issued.length ≤ v.issued.length + 1 ∧
      (v.nextTimerId + k ∈ ts → u.firings = v.firings + 1 ∧ u.pendingTimers = []) := by
  have sv : v.Settled := hv ▸ runViewport_settled evs _ (settled_initial page)
  obtain ⟨w1, w2, w3, w4⟩ := runViewport_moveends k v sv
  rw [← hw] at w1 w2 w3 w4
  obtain ⟨u1, u2, u3⟩ := runViewport_timeouts ts w w2
  rw [← hu] at u1 u2 u3
  rw [w1, w3] at u1
  rw [w1, w4] at u2
  refine ⟨settled_length v sv, w1, w3, w4, u1, u2, ?_⟩
  intro hmem
  have := u3 _ w1 hmem
  rw [w3] at this
  exact this

theorem at_most_one_reload_timer_witness :
    (runViewport (runViewport (runViewport (ViewportState.initial panPage) [.moveend])
        (List.replicate 3 .moveend)) ([4].map .timeout)).firings = 0 + 1 ∧
      (runViewport (runViewport (ViewportState.initial panPage) [.moveend])
        (List.replicate 3 .moveend)).pendingTimers = [2 + 2] :=
  ⟨((at_most_one_reload_timer panPage [.moveend] 2 [4] _ _ _ rfl rfl rfl).2.2.2.2.2.2
      (by decide)).1,
    (at_most_one_reload_timer panPage [.moveend] 2 [4] _ _ _ rfl rfl rfl).2.1⟩

/-- C20: `applyBulkUpdate` sends a request exactly when a project is chosen, the Selection
Set is non-empty and a target status is chosen; it never changes the Selection Set before the
request; when it sends none it only raises one alert, and when it sends one the request
carries the project, the selected ids and the status. -/
theorem bulk_update_guards (st : ModeState) :
    ((applyBulkUpdateRequest st).2.isSome = true ↔
        st.page.projectSelect ≠ "" ∧ st.selectedTaskIds ≠ [] ∧ st.bulkStatusSelect ≠ "") ∧
      (applyBulkUpdateRequest st).1.selectedTaskIds = st.selectedTaskIds ∧
      ((applyBulkUpdateRequest st).2 = none →
        (applyBulkUpdateRequest st).1.alerts.length = st.alerts.length + 1) ∧
      (∀ req, (applyBulkUpdateRequest st).2 = some req →
        req = ⟨st.page.projectSelect, st.selectedTaskIds, st.bulkStatusSelect⟩ ∧
        (applyBulkUpdateRequest st).1 = st) := by
  unfold applyBulkUpdateRequest
  by_cases h1 : st.page.projectSelect = ""
  · simp [h1]
  · by_cases h2 : st.selectedTaskIds = []
    · simp [h1, h2]
    · have h2l : ¬ st.selectedTaskIds.length = 0 := fun h =>
        h2 (List.eq_nil_of_length_eq_zero h)
      by_cases h3 : st.bulkStatusSelect = ""
      · simp [h1, h2, h3]
      · simp only [h1, h2l, h3, if_false, Option.isSome_some, ne_eq, not_false_eq_true, h2,
          and_self, true_and, Option.some.injEq, reduceCtorEq, false_implies]
        intro req hreq
        exact ⟨hreq.symm, trivial⟩

/-! ## Bulk selection -/

theorem clearSelection_page (st : ModeState) : (clearSelection st).page = st.page := by
  unfold clearSelection updateSelectionHighlight updateBulkActionsBar ModeState.hasMap
  by_cases hm : st.page.map.isSome = true <;> simp [hm]

theorem applyBulkUpdateRequest_sent (st : ModeState) (hproj : st.page.projectSelect ≠ "")
    (hsel : st.selectedTaskIds ≠ []) (hstatus : st.bulkStatusSelect ≠ "") :
    applyBulkUpdateRequest st =
      (st, some ⟨st.page.projectSelect, st.selectedTaskIds, st.bulkStatusSelect⟩) := by
  have hl : ¬ st.selectedTaskIds.length = 0 := fun h =>
    hsel (List.eq_nil_of_length_eq_zero h)
  simp [applyBulkUpdateRequest, hproj, hl, hstatus]

theorem loadMapDataRequest_full (page : PageState) (req : Request)
    (h : loadMapDataRequest page false = some req) : req.bbox = none := by
  unfold loadMapDataRequest at h
  by_cases hp : page.projectSelect = ""
  · rw [if_pos hp] at h
    cases h
  · rw [if_neg hp] at h
    cases hm : page.map with
    | none => rw [hm] at h; cases h
    | some m =>
      rw [hm] at h
      simp only [Option.some.injEq] at h
      rw [← h]
      simp

/-- C21: with a project chosen, a non-empty Selection Set and a target status, the one
request `applyBulkUpdate` sends carries the project, the target status and the members of
the Selection Set, each once; when the response arrives (in whatever state the page then
is), the Selection Set is emptied and `loadMapData()` is called without bounding box, so the
request that call issues, if the project is still chosen and the map exists, has no `bbox`. -/
theorem bulk_update_sends_selection_then_reloads (st st2 : ModeState) (updated : Option Nat)
    (hproj : st.page.projectSelect ≠ "") (hsel : st.selectedTaskIds ≠ [])
    (hnd : st.selectedTaskIds.Nodup) (hstatus : st.bulkStatusSelect ≠ "") :
    (∃ req, applyBulkUpdateRequest st = (st, some req) ∧
        req.projectId = st.page.projectSelect ∧ req.status = st.bulkStatusSelect ∧
        req.taskIds.Nodup ∧ (∀ x, x ∈ req.taskIds ↔ x ∈ st.selectedTaskIds)) ∧
      (applyBulkUpdateRespond st2 (.resolved updated)).1.selectedTaskIds = [] ∧
      (applyBulkUpdateRespond st2 (.resolved updated)).2 = some false ∧
      (∀ req, loadMapDataRequest (applyBulkUpdateRespond st2 (.resolved updated)).1.page false
          = some req → req.bbox = none) ∧
      (st2.page.projectSelect ≠ "" → st2.hasMap = true →
        (loadMapDataRequest (applyBulkUpdateRespond st2 (.resolved updated)).1.page
          false).isSome = true) := by
  refine ⟨⟨_, applyBulkUpdateRequest_sent st hproj hsel hstatus, rfl, rfl, hnd,
    fun _ => Iff.rfl⟩, ?_, rfl, ?_, ?_⟩
  · exact (clearSelection_fields _).1
  · exact fun req hreq => loadMapDataRequest_full _ req hreq
  · intro hp hmap
    have hpage : (applyBulkUpdateRespond st2 (.resolved updated)).1.page = st2.page :=
      clearSelection_page _
    rw [hpage]
    unfold loadMapDataRequest
    rw [if_neg hp]
    unfold ModeState.hasMap at hmap
    cases hm : st2.page.map with
    | none => rw [hm] at hmap; cases hmap
    | some m => rfl

theorem bulk_update_sends_selection_then_reloads_witness :
    readyToApply.page.projectSelect ≠ "" ∧ readyToApply.selectedTaskIds ≠ [] ∧
      readyToApply.selectedTaskIds.Nodup ∧ readyToApply.bulkStatusSelect ≠ "" ∧
      (∃ req, applyBulkUpdateRequest readyToApply = (readyToApply, some req) ∧
        req.status = "approved" ∧ (∀ x, x ∈ req.taskIds ↔ x ∈ ["t1"])) ∧
      (applyBulkUpdateRespond readyToApply (.resolved (some 1))).1.selectedTaskIds = [] :=
  have h := bulk_update_sends_selection_then_reloads readyToApply readyToApply (some 1)
    (by decide) (by decide) (by decide) (by decide)
  ⟨by decide, by decide, by decide, by decide,
    let ⟨req, h1, _, h3, _, h5⟩ := h.1
    ⟨req, h1, h3, h5⟩, h.2.1⟩

/-- C22: on a Selection Set (a list without repetition), `toggleTaskSelection(x)` yields a
set that contains `x` exactly when the old one did not and agrees with the old one on every
other id; the result is again without repetition, and toggling `x` twice gives back a set
with the members of the original. -/
theorem toggle_selection_flips_membership (st : ModeState) (x : String)
    (hnd : st.selectedTaskIds.Nodup) :
    (x ∈ (toggleTaskSelection x st).selectedTaskIds ↔ x ∉ st.selectedTaskIds) ∧
      (∀ y, y ≠ x →
        (y ∈ (toggleTaskSelection x st).selectedTaskIds ↔ y ∈ st.selectedTaskIds)) ∧
      (toggleTaskSelection x st).selectedTaskIds.Nodup ∧
      (∀ y, y ∈ (toggleTaskSelection x (toggleTaskSelection x st)).selectedTaskIds ↔
        y ∈ st.selectedTaskIds) := by
  have key : ∀ (s : ModeState), s.selectedTaskIds.Nodup →
      (x ∈ (toggleTaskSelection x s).selectedTaskIds ↔ x ∉ s.selectedTaskIds) ∧
      (∀ y, y ≠ x →
        (y ∈ (toggleTaskSelection x s).selectedTaskIds ↔ y ∈ s.selectedTaskIds)) ∧
      (toggleTaskSelection x s).selectedTaskIds.Nodup := by
    intro s hs
    rw [toggleTaskSelection_ids]
    by_cases hin : x ∈ s.selectedTaskIds
    · rw [if_pos hin]
      refine ⟨?_, ?_, hs.erase x⟩
      · rw [hs.mem_erase_iff]
        simp [hin]
      · intro y hy
        rw [hs.mem_erase_iff]
        simp [hy]
    · rw [if_neg hin]
      refine ⟨?_, ?_, ?_⟩
      · simp [hin]
      · intro y hy
        simp [hy]
      · rw [List.nodup_append]
        refine ⟨hs, List.nodup_singleton x, ?_⟩
        intro a ha hb
        rw [List.mem_singleton] at hb
        exact hin (hb ▸ ha)
  obtain ⟨k1, k2, k3⟩ := key st hnd
  obtain ⟨j1, j2, _⟩ := key (toggleTaskSelection x st) k3
  refine ⟨k1, k2, k3, ?_⟩
  intro y
  by_cases hy : y = x
  · subst hy
    rw [j1, k1]
    exact not_not
  · rw [j2 y hy, k2 y hy]

theorem toggle_selection_flips_membership_witness :
    selectingModes.selectedTaskIds.Nodup ∧
      ("t2" ∈ (toggleTaskSelection "t2" selectingModes).selectedTaskIds ↔
        "t2" ∉ selectingModes.selectedTaskIds) :=
  ⟨by decide, (toggle_selection_flips_membership selectingModes "t2" (by decide)).1⟩

theorem selectionFilter_accepts (ids : List String) (x : String) :
    (ids ≠ [] → ((selectionFilter ids).accepts x = true ↔ x ∈ ids)) ∧
      (ids = [] → ((selectionFilter ids).accepts x = true ↔ x = "__none__")) := by
  unfold selectionFilter
  constructor
  · intro h
    have hl : ids.length > 0 := List.length_pos.2 h
    simp [hl, IdFilter.accepts]
  · intro h
    simp [h, IdFilter.accepts]

theorem updateSelectionHighlight_filters (st : ModeState) (hmap : st.hasMap = true) :
    (updateSelectionHighlight st).spansSelectHighlight
        = some (selectionFilter st.selectedTaskIds) ∧
      (updateSelectionHighlight st).nodesSelectHighlight
        = some (selectionFilter st.selectedTaskIds) ∧
      (updateSelectionHighlight st).dropsSelectHighlight
        = some (selectionFilter st.selectedTaskIds) ∧
      (updateSelectionHighlight st).selectedTaskIds = st.selectedTaskIds := by
  unfold updateSelectionHighlight
  rw [if_pos hmap]
  exact ⟨rfl, rfl, rfl, rfl⟩

theorem membership_change_filters (st : ModeState) (hmap : st.hasMap = true) :
    (∀ t c, c ≠ Category.zone → (toggleTaskSelection t st).selectHighlight c
        = some (selectionFilter (toggleTaskSelection t st).selectedTaskIds)) ∧
      (∀ c, c ≠ Category.zone → (clearSelection st).selectHighlight c
        = some (selectionFilter (clearSelection st).selectedTaskIds)) := by
  constructor
  · intro t c hc
    have hm : ∀ ids, ModeState.hasMap
        (updateBulkActionsBar { st with selectedTaskIds := ids }) = true := by
      intro ids
      unfold updateBulkActionsBar
      split_ifs <;> exact hmap
    obtain ⟨h1, h2, h3, h4⟩ := updateSelectionHighlight_filters _
      (hm (if t ∈ st.selectedTaskIds then st.selectedTaskIds.erase t
        else st.selectedTaskIds ++ [t]))
    have e : ∀ s : ModeState, (updateBulkActionsBar s).selectedTaskIds = s.selectedTaskIds := by
      intro s
      unfold updateBulkActionsBar
      split_ifs <;> rfl
    unfold toggleTaskSelection
    simp only [h4]
    rw [e] at h1 h2 h3 ⊢
    cases c
    · exact h1
    · exact h2
    · exact h3
    · exact absurd rfl hc
  · intro c hc
    obtain ⟨k1, _, _, _, k5, _⟩ := clearSelection_fields st
    obtain ⟨a, b, d⟩ := k5 hmap
    rw [k1]
    have e : selectionFilter [] = .eqId "__none__" := rfl
    rw [e]
    cases c
    · exact a
    · exact b
    · exact d
    · exact absurd rfl hc

/-- C23 (as stated, refuted): after clearing the selection the Selection Set is empty, yet
the filter of the spans selection-highlight layer accepts a feature whose id property is
`__none__`. -/
theorem empty_selection_filter_accepts_sentinel :
    ¬ ∀ (st : ModeState), st.hasMap = true → ∀ (c : Category) (x : String),
        ∃ f, (clearSelection st).selectHighlight c = some f ∧
          (f.accepts x = true ↔ x ∈ (clearSelection st).selectedTaskIds) := by
  intro h
  obtain ⟨f, h1, h2⟩ := h loadedModes rfl .span "__none__"
  have e : (clearSelection loadedModes).selectHighlight .span = some (.eqId "__none__") := rfl
  rw [e] at h1
  cases h1
  have : "__none__" ∈ (clearSelection loadedModes).selectedTaskIds := h2.1 (by decide)
  revert this
  decide

/-- C23 (amended): after a toggle or a clear with the map present, the selection-highlight
layers of spans, nodes and drops exist and carry the filter built from the Selection Set:
while the set is non-empty it accepts a feature exactly when the feature's id property is a
member, and when the set is empty it accepts exactly the id property `__none__`. -/
theorem selection_highlight_follows_selection (st : ModeState) (hmap : st.hasMap = true)
    (c : Category) (hc : c ≠ .zone) :
    (∀ t, ∃ f, (toggleTaskSelection t st).selectHighlight c = some f ∧
        ((toggleTaskSelection t st).selectedTaskIds ≠ [] →
          ∀ x, f.accepts x = true ↔ x ∈ (toggleTaskSelection t st).selectedTaskIds) ∧
        ((toggleTaskSelection t st).selectedTaskIds = [] →
          ∀ x, f.accepts x = true ↔ x = "__none__")) ∧
      (∃ f, (clearSelection st).selectHighlight c = some f ∧
        (clearSelection st).selectedTaskIds = [] ∧
        ∀ x, f.accepts x = true ↔ x = "__none__") := by
  obtain ⟨h1, h2⟩ := membership_change_filters st hmap
  constructor
  · intro t
    exact ⟨_, h1 t c hc, fun hne x => (selectionFilter_accepts _ x).1 hne,
      fun he x => (selectionFilter_accepts _ x).2 he⟩
  · have he : (clearSelection st).selectedTaskIds = [] := (clearSelection_fields st).1
    exact ⟨_, h2 c hc, he, fun x => (selectionFilter_accepts _ x).2 he⟩

theorem selection_highlight_follows_selection_witness :
    loadedModes.hasMap = true ∧ Category.node ≠ Category.zone ∧
      ∃ f, (toggleTaskSelection "t1" loadedModes).selectHighlight .node = some f ∧
        ∀ x, f.accepts x = true ↔ x ∈ (toggleTaskSelection "t1" loadedModes).selectedTaskIds :=
  ⟨rfl, by decide,
    let ⟨f, h1, h2, _⟩ :=
      (selection_highlight_follows_selection loadedModes rfl .node (by decide)).1 "t1"
    ⟨f, h1, h2 (by decide)⟩⟩

theorem loadMapData_ok (page : PageState) (b : Bool) (api : Request → ApiResult) :
    ∃ page1, loadMapData page b api = .ok page1 ∧
      page1.projectSelect = page.projectSelect ∧ page1.statusFilter = page.statusFilter := by
  unfold loadMapData
  cases loadMapDataRequest page b with
  | none => exact ⟨page, rfl, rfl, rfl⟩
  | some req =>
    simp only
    cases page.map with
    | none => exact ⟨page, rfl, rfl, rfl⟩
    | some m =>
      simp only
      unfold loadMapDataRespond
      cases loadMapDataTry m b (api req) <;> exact ⟨_, rfl, rfl, rfl⟩

/-- C24 (as stated, refuted): with task `t1` selected, a completed full reload leaves `t1`
in the Selection Set. -/
theorem selection_survives_reload :
    ¬ ∀ (st : ModeState) (b : Bool) (api : Request → ApiResult),
        ∃ st1, reloadMapData st b api = .ok st1 ∧
          ∀ x ∈ st.selectedTaskIds, x ∉ st1.selectedTaskIds := by
  intro h
  obtain ⟨st1, h1, h2⟩ := h selectingModes false sampleApi
  obtain ⟨page1, hp, _⟩ := loadMapData_ok selectingModes.page false sampleApi
  have e : reloadMapData selectingModes false sampleApi
      = .ok { selectingModes with page := page1 } := by
    simp only [reloadMapData, hp]
  rw [e] at h1
  cases h1
  have hin : "t1" ∈ selectingModes.selectedTaskIds := by decide
  exact h2 "t1" hin hin

/-- C24 (amended): a reload always completes and leaves the Selection Set, the BulkSelect
flag and the selection-highlight filters as they were.  The Selection Set holds `id`
properties, and the re-numbering of a load replaces only the top-level id of a feature, not
its property bag. -/
theorem reload_keeps_selection (st : ModeState) (b : Bool) (api : Request → ApiResult) :
    (∃ st1, reloadMapData st b api = .ok st1 ∧
        st1.selectedTaskIds = st.selectedTaskIds ∧ st1.selectMode = st.selectMode ∧
        (∀ c, st1.selectHighlight c = st.selectHighlight c)) ∧
      (∀ (fs : List Feature) (g : Feature), g ∈ assignIds fs 0 →
        ∃ f ∈ fs, g.properties = f.properties) := by
  constructor
  · obtain ⟨page1, hp, _⟩ := loadMapData_ok st.page b api
    refine ⟨{ st with page := page1 }, by simp only [reloadMapData, hp], rfl, rfl, ?_⟩
    intro c
    cases c <;> rfl
  · intro fs g hg
    obtain ⟨f, hf, j, rfl⟩ := mem_assignIds fs 0 g hg
    exact ⟨f, hf, rfl⟩

/-! ## Paint layers -/

theorem foldl_setLayoutVisibility (b : Bool) (ids : List String) :
    ∀ (layers : StyleLayers) (id : String),
      (ids.foldl (fun acc i => setLayoutVisibility i b acc) layers) id =
        if id ∈ ids then (layers id).map (fun l => { l with visible := b }) else layers id := by
  induction ids with
  | nil => intro layers id; simp
  | cons a rest ih =>
    intro layers id
    rw [List.foldl_cons, ih]
    unfold setLayoutVisibility
    by_cases h1 : id = a
    · by_cases h2 : id ∈ rest
      · simp only [h1, List.mem_cons, true_or, if_true]
        rw [← h1, if_pos h2]
        cases layers id <;> rfl
      · simp only [h1, List.mem_cons, true_or, if_true]
        rw [← h1, if_neg h2]
    · by_cases h2 : id ∈ rest
      · simp [h1, h2]
      · simp [h1, h2]

theorem toggleLayer_apply (g : String) (b : Bool) (layers : StyleLayers) (id : String) :
    toggleLayer g b layers id =
      if id ∈ layerMap g then (layers id).map (fun l => { l with visible := b })
      else layers id :=
  foldl_setLayoutVisibility b (layerMap g) layers id

/-- C25: unchecking the span toggle sets the visibility of the casing, line, highlight and
label layers of the spans to hidden, each where it exists, and checking it again sets them
to visible; every other layer, in particular every layer of the nodes, drops and zones
groups, is left exactly as it was.  On the layers of `addMapLayers` all four span layers end
hidden, then visible. -/
theorem span_layers_toggle_together (layers : StyleLayers) (id : String) :
    layerMap "spans" = ["spans-casing", "spans-line", "spans-highlight", "spans-label"] ∧
      (id ∈ layerMap "spans" →
        (toggleLayer "spans" false layers id).map (fun l => l.visible)
          = (layers id).map (fun _ => false) ∧
        (toggleLayer "spans" true (toggleLayer "spans" false layers) id).map
          (fun l => l.visible) = (layers id).map (fun _ => true)) ∧
      (id ∉ layerMap "spans" →
        toggleLayer "spans" false layers id = layers id ∧
        toggleLayer "spans" true (toggleLayer "spans" false layers) id = layers id) ∧
      (∀ i ∈ layerMap "spans",
        (toggleLayer "spans" false addMapLayers i).map (fun l => l.visible) = some false ∧
        (toggleLayer "spans" true (toggleLayer "spans" false addMapLayers) i).map
          (fun l => l.visible) = some true) ∧
      (∀ g ∈ ["nodes", "drops", "zones"], ∀ i ∈ layerMap g, i ∉ layerMap "spans") := by
  have hon : ∀ (L : StyleLayers) (i : String), i ∈ layerMap "spans" →
      (toggleLayer "spans" false L i).map (fun l => l.visible) = (L i).map (fun _ => false) ∧
      (toggleLayer "spans" true (toggleLayer "spans" false L) i).map (fun l => l.visible)
        = (L i).map (fun _ => true) := by
    intro L i hi
    simp only [toggleLayer_apply, if_pos hi]
    cases L i <;> exact ⟨rfl, rfl⟩
  refine ⟨rfl, hon layers id, ?_, ?_, by decide⟩
  · intro hid
    simp [toggleLayer_apply, hid]
  · intro i hi
    obtain ⟨h1, h2⟩ := hon addMapLayers i hi
    rw [h1, h2]
    have hi4 : i = "spans-casing" ∨ i = "spans-line" ∨ i = "spans-highlight" ∨
        i = "spans-label" := by
      simpa [layerMap] using hi
    rcases hi4 with rfl | rfl | rfl | rfl <;> exact ⟨rfl, rfl⟩

/-- C26 (as stated, refuted): no single multiplier relates hovered and plain value on all
five hover-sensitive layers: the span casing goes from 6 to 9 and the node halo from 10 to
13. -/
theorem hover_has_no_common_multiplier :
    ¬ ∃ k : ℚ, ∀ lp ∈ hoverSensitive, ∀ props : String → PaintValue,
        ∃ w, paintValue addMapLayers lp.1 lp.2 props false = .num w ∧
          paintValue addMapLayers lp.1 lp.2 props true = .num (w * k) := by
  rintro ⟨k, h⟩
  obtain ⟨w1, a1, a2⟩ := h ("spans-casing", "line-width") (by decide) plainProps
  obtain ⟨w2, b1, b2⟩ := h ("nodes-outer", "circle-radius") (by decide) plainProps
  have e1 : paintValue addMapLayers "spans-casing" "line-width" plainProps false = .num 6 := by
    decide
  have e2 : paintValue addMapLayers "spans-casing" "line-width" plainProps true = .num 9 := by
    decide
  have e3 : paintValue addMapLayers "nodes-outer" "circle-radius" plainProps false
      = .num 10 := by decide
  have e4 : paintValue addMapLayers "nodes-outer" "circle-radius" plainProps true
      = .num 13 := by decide
  rw [e1] at a1
  rw [e2] at a2
  rw [e3] at b1
  rw [e4] at b2
  injection a1 with a1
  injection a2 with a2
  injection b1 with b1
  injection b2 with b2
  rw [← a1] at a2
  rw [← b1] at b2
  linarith

/-- C26 (amended): for every feature whose `style_width` is absent or a number, the hovered
width of the span line is 1.5 times the plain width, and the span casing goes from 6 to
9 = 6 * 1.5; after `setLineWidth(px)` the span line goes from `px` to `px * 1.5` and the
casing from `px + 2` to `(px + 2) * 1.5`.  The node halo, node circle and drop circle grow by
3 (10 to 13, 7 to 10, 5 to 8), not by a common factor.  No colour of these layers depends on
the hover state, before or after `setLineWidth`. -/
theorem hover_scaling_by_layer (props : String → PaintValue) (px : Int)
    (hw : props "style_width" = .null ∨ ∃ q, props "style_width" = .num q) :
    (∃ w, paintValue addMapLayers "spans-line" "line-width" props false = .num w ∧
        paintValue addMapLayers "spans-line" "line-width" props true = .num (w * 1.5)) ∧
      (paintValue addMapLayers "spans-casing" "line-width" props false = .num 6 ∧
        paintValue addMapLayers "spans-casing" "line-width" props true = .num (6 * 1.5)) ∧
      (paintValue addMapLayers "nodes-outer" "circle-radius" props false = .num 10 ∧
        paintValue addMapLayers "nodes-outer" "circle-radius" props true = .num (10 + 3)) ∧
      (paintValue addMapLayers "nodes-circle" "circle-radius" props false = .num 7 ∧
        paintValue addMapLayers "nodes-circle" "circle-radius" props true = .num (7 + 3)) ∧
      (paintValue addMapLayers "drops-circle" "circle-radius" props false = .num 5 ∧
        paintValue addMapLayers "drops-circle" "circle-radius" props true = .num (5 + 3)) ∧
      (paintValue (setLineWidth px addMapLayers) "spans-line" "line-width" props false
          = .num px ∧
        paintValue (setLineWidth px addMapLayers) "spans-line" "line-width" props true
          = .num (px * 1.5)) ∧
      (paintValue (setLineWidth px addMapLayers) "spans-casing" "line-width" props false
          = .num (px + 2) ∧
        paintValue (setLineWidth px addMapLayers) "spans-casing" "line-width" props true
          = .num ((px + 2) * 1.5)) ∧
      (∀ lp ∈ hoverLayerColours,
        paintValue addMapLayers lp.1 lp.2 props true
          = paintValue addMapLayers lp.1 lp.2 props false ∧
        paintValue (setLineWidth px addMapLayers) lp.1 lp.2 props true
          = paintValue (setLineWidth px addMapLayers) lp.1 lp.2 props false) := by
  refine ⟨?_, ?_, ?_, ?_, ?_, ?_, ?_, ?_⟩
  · rcases hw with h | ⟨q, h⟩
    · refine ⟨4, ?_, ?_⟩ <;>
        simp [paintValue, addMapLayers, List.lookup, hoverCase, StyleExpr.eval, numLit, h]
    · refine ⟨q, ?_, ?_⟩ <;>
        simp [paintValue, addMapLayers, List.lookup, hoverCase, StyleExpr.eval, numLit, h]
  · constructor <;>
      simp [paintValue, addMapLayers, List.lookup, hoverCase, StyleExpr.eval, numLit]
    norm_num
  · constructor <;>
      simp [paintValue, addMapLayers, List.lookup, hoverCase, StyleExpr.eval, numLit]
    norm_num
  · constructor <;>
      simp [paintValue, addMapLayers, List.lookup, hoverCase, StyleExpr.eval, numLit]
    norm_num
  · constructor <;>
      simp [paintValue, addMapLayers, List.lookup, hoverCase, StyleExpr.eval, numLit]
    norm_num
  · constructor <;>
      simp [paintValue, setLineWidth, setPaintProperty, addMapLayers, List.lookup, hoverCase,
        StyleExpr.eval, numLit]
  · constructor <;>
      simp [paintValue, setLineWidth, setPaintProperty, addMapLayers, List.lookup, hoverCase,
        StyleExpr.eval, numLit]
    ring
  · intro lp hlp
    have hcases : lp = ("spans-casing", "line-color") ∨ lp = ("spans-line", "line-color") ∨
        lp = ("nodes-outer", "circle-color") ∨ lp = ("nodes-circle", "circle-color") ∨
        lp = ("nodes-circle", "circle-stroke-color") ∨ lp = ("drops-circle", "circle-color") ∨
        lp = ("drops-circle", "circle-stroke-color") := by
      simpa [hoverLayerColours] using hlp
    rcases hcases with rfl | rfl | rfl | rfl | rfl | rfl | rfl <;>
      constructor <;>
      simp [paintValue, setLineWidth, setPaintProperty, addMapLayers, List.lookup,
        styleOrStatusColor, strLit, StyleExpr.eval]

theorem hover_scaling_by_layer_witness :
    (wideProps "style_width" = .null ∨ ∃ q, wideProps "style_width" = .num q) ∧
      ∃ w, paintValue addMapLayers "spans-line" "line-width" wideProps false = .num w ∧
        paintValue addMapLayers "spans-line" "line-width" wideProps true = .num (w * 1.5) :=
  have hw : wideProps "style_width" = .null ∨ ∃ q, wideProps "style_width" = .num q :=
    Or.inr ⟨6, by decide⟩
  ⟨hw, (hover_scaling_by_layer wideProps 4 hw).1⟩

/-! ## Basemap swap, popup placement, camera -/

theorem switchBasemap_some (st : ModeState) (m : MapState) (hm : st.page.map = some m) :
    ∃ m1, (switchBasemap st).page.map = some m1 ∧
      (∀ c, m1.sources.get c =
        match m.sources.get c with
        | some d => some d
        | none => some []) ∧
      m1.zoom = m.zoom ∧ m1.bounds = m.bounds ∧ m1.fittedTo = m.fittedTo ∧
      (switchBasemap st).layerClickHandlers = st.layerClickHandlers + 1 ∧
      (switchBasemap st).selectedTaskIds = st.selectedTaskIds ∧
      (switchBasemap st).selectMode = st.selectMode ∧
      (switchBasemap st).measureMode = st.measureMode ∧
      (switchBasemap st).measureClickRegistered = st.measureClickRegistered := by
  unfold switchBasemap
  rw [hm]
  refine ⟨_, rfl, ?_, rfl, rfl, rfl, rfl, rfl, rfl, rfl, rfl⟩
  intro c
  cases c
  · show (match m.sources.spans with
      | some d => setData addMapSources.spans d
      | none => addMapSources.spans) = _
    simp only [MapSources.get]
    cases m.sources.spans <;> rfl
  · show (match m.sources.nodes with
      | some d => setData addMapSources.nodes d
      | none => addMapSources.nodes) = _
    simp only [MapSources.get]
    cases m.sources.nodes <;> rfl
  · show (match m.sources.drops with
      | some d => setData addMapSources.drops d
      | none => addMapSources.drops) = _
    simp only [MapSources.get]
    cases m.sources.drops <;> rfl
  · show (match m.sources.zones with
      | some d => setData addMapSources.zones d
      | none => addMapSources.zones) = _
    simp only [MapSources.get]
    cases m.sources.zones <;> rfl

/-- C27: after a basemap swap on an existing map all four sources exist; a source that
existed before holds exactly the features it held, and one that did not exist is empty.  The
data comes from the copies kept in `currentData`: the swap takes no server response. -/
theorem basemap_swap_keeps_collections (st : ModeState) (m : MapState)
    (hm : st.page.map = some m) :
    ∃ m1, (switchBasemap st).page.map = some m1 ∧
      (∀ c, m1.sources.get c ≠ none) ∧
      (∀ c l, m.sources.get c = some l → m1.sources.get c = some l) ∧
      (∀ c, m.sources.get c = none → m1.sources.get c = some []) := by
  obtain ⟨m1, h1, h2, _⟩ := switchBasemap_some st m hm
  refine ⟨m1, h1, ?_, ?_, ?_⟩
  · intro c
    rw [h2 c]
    cases m.sources.get c <;> simp
  · intro c l hl
    rw [h2 c, hl]
  · intro c hc
    rw [h2 c, hc]

theorem basemap_swap_keeps_collections_witness :
    selectingModes.page.map = some panMap ∧
      ∃ m1, (switchBasemap selectingModes).page.map = some m1 ∧
        m1.sources.get .span = some [farSpan] :=
  ⟨rfl,
    let ⟨m1, h1, _, h3, _⟩ := basemap_swap_keeps_collections selectingModes panMap rfl
    ⟨m1, h1, h3 .span [farSpan] rfl⟩⟩

theorem roundHalfEven_of (v : ℚ) (m : Int) (h : |v - m| < 1 / 2) : roundHalfEven v = m := by
  rw [abs_lt] at h
  unfold roundHalfEven
  by_cases hv : (m : ℚ) ≤ v
  · have hf : ⌊v⌋ = m := Int.floor_eq_iff.2 ⟨hv, by linarith⟩
    simp only [hf]
    rw [if_pos (by linarith)]
  · have hf : ⌊v⌋ = m - 1 :=
      Int.floor_eq_iff.2 ⟨by push_cast; linarith, by push_cast; linarith⟩
    simp only [hf]
    rw [if_neg (by push_cast; linarith), if_pos (by push_cast; linarith)]
    ring

/-- How `roundDouble` rounds in the normal range: with `2 ^ e ≤ |x| < 2 ^ (e + 1)` the result
is the multiple `m * 2 ^ (e - 52)` of the spacing that lies nearest to `x`. -/
theorem roundDouble_of (x : ℚ) (e m : Int) (hx : x ≠ 0) (he : -1022 ≤ e)
    (h1 : (2 : ℚ) ^ e ≤ |x|) (h2 : |x| < (2 : ℚ) ^ (e + 1))
    (hm : |x / 2 ^ (e - 52) - m| < 1 / 2)
    (hfin : |(m : ℚ) * 2 ^ (e - 52)| < 2 ^ (1024 : ℤ)) :
    roundDouble x = some ((m : ℚ) * 2 ^ (e - 52)) := by
  have hpos : 0 < |x| := abs_pos.2 hx
  have hlog : Int.log 2 |x| = e := by
    apply le_antisymm
    · have := (Int.lt_zpow_iff_log_lt (b := 2) (by norm_num) hpos).1 (by exact_mod_cast h2)
      omega
    · exact (Int.zpow_le_iff_le_log (b := 2) (by norm_num) hpos).1 (by exact_mod_cast h1)
  unfold roundDouble
  rw [if_neg hx]
  simp only [hlog, max_eq_left he, roundHalfEven_of _ m hm]
  rw [if_pos hfin]

/-- Every integer below `2 ^ 53` in absolute value is a double. -/
theorem roundDouble_intCast (n : Int) (h : |n| < 2 ^ 53) :
    roundDouble (n : ℚ) = some (n : ℚ) := by
  by_cases hn : n = 0
  · subst hn
    simp [roundDouble]
  have hx : (n : ℚ) ≠ 0 := by exact_mod_cast hn
  have hpos : 0 < |(n : ℚ)| := abs_pos.2 hx
  have h1abs : (1 : ℚ) ≤ |(n : ℚ)| := by
    have : 1 ≤ |n| := Int.one_le_abs hn
    exact_mod_cast this
  have hlt : |(n : ℚ)| < 2 ^ (53 : ℤ) := by
    have h3 : ((|n| : Int) : ℚ) < ((2 : ℚ) ^ (53 : ℕ)) := by exact_mod_cast h
    rw [Int.cast_abs] at h3
    calc |(n : ℚ)| < (2 : ℚ) ^ (53 : ℕ) := h3
      _ = 2 ^ (53 : ℤ) := by norm_num
  have he0 : 0 ≤ Int.log 2 |(n : ℚ)| :=
    (Int.zpow_le_iff_le_log (b := 2) (by norm_num) hpos).1 (by simpa using h1abs)
  have he52 : Int.log 2 |(n : ℚ)| < 53 :=
    (Int.lt_zpow_iff_log_lt (b := 2) (by norm_num) hpos).1 (by exact_mod_cast hlt)
  obtain ⟨k, hk⟩ : ∃ k : Nat, Int.log 2 |(n : ℚ)| = 52 - k ∧ k ≤ 52 :=
    ⟨(52 - Int.log 2 |(n : ℚ)|).toNat, by omega, by omega⟩
  have hq : (2 : ℚ) ^ (Int.log 2 |(n : ℚ)| - 52) = 1 / 2 ^ k := by
    rw [hk.1]
    have : (52 - (k : ℤ) - 52) = -(k : ℤ) := by ring
    rw [this, zpow_neg, zpow_natCast, one_div]
  have key := roundDouble_of (n : ℚ) (Int.log 2 |(n : ℚ)|) (n * 2 ^ k) hx (by omega)
    (Int.zpow_log_le_self (by norm_num) hpos)
    (Int.lt_zpow_succ_log_self (by norm_num) _)
    (by rw [hq]; push_cast; field_simp)
    (by
      rw [hq]
      push_cast
      have : ((n : ℚ) * 2 ^ k) * (1 / 2 ^ k) = n := by field_simp
      rw [this]
      calc |(n : ℚ)| < 2 ^ (53 : ℤ) := hlt
        _ ≤ 2 ^ (1024 : ℤ) := by norm_num)
  rw [key, hq]
  push_cast
  congr 1
  field_simp

theorem isDouble_samples :
    isDouble pointerTenth ∧ isDouble 200 ∧ isDouble narrowMapWidth := by
  refine ⟨?_, ?_, ?_⟩
  · have := roundDouble_of pointerTenth (-4) 7205759403792794 (by norm_num [pointerTenth])
      (by norm_num) (by norm_num [pointerTenth, abs_of_pos])
      (by norm_num [pointerTenth, abs_of_pos]) (by norm_num [pointerTenth, abs_lt])
      (by norm_num [abs_of_pos])
    unfold isDouble
    rw [this]
    norm_num [pointerTenth]
  · have := roundDouble_intCast 200 (by norm_num)
    unfold isDouble
    simpa using this
  · have := roundDouble_of narrowMapWidth 7 7920002157196083 (by norm_num [narrowMapWidth])
      (by norm_num) (by norm_num [narrowMapWidth, abs_of_pos])
      (by norm_num [narrowMapWidth, abs_of_pos]) (by norm_num [narrowMapWidth, abs_lt])
      (by norm_num [abs_of_pos])
    unfold isDouble
    rw [this]
    norm_num [narrowMapWidth]

/-- At the pointer `0.1` with a popup of width 200 on a map of width `225.1` the sums
`0.1 + 15 + 200` and `225.1 - 10` round to the same double, so the popup is not flipped. -/
theorem popupLeft_boundary : popupLeft pointerTenth 200 narrowMapWidth = some unflippedLeft := by
  have e1 : roundDouble (pointerTenth + 15) = some unflippedLeft := by
    have := roundDouble_of (pointerTenth + 15) 3 8500544296661811
      (by norm_num [pointerTenth]) (by norm_num) (by norm_num [pointerTenth, abs_of_pos])
      (by norm_num [pointerTenth, abs_of_pos]) (by norm_num [pointerTenth, abs_lt])
      (by norm_num [abs_of_pos])
    rw [this]
    norm_num [unflippedLeft]
  have e2 : roundDouble (unflippedLeft + 200) = some roundedEdge := by
    have := roundDouble_of (unflippedLeft + 200) 7 7568158436307763
      (by norm_num [unflippedLeft]) (by norm_num) (by norm_num [unflippedLeft, abs_of_pos])
      (by norm_num [unflippedLeft, abs_of_pos]) (by norm_num [unflippedLeft, abs_lt])
      (by norm_num [abs_of_pos])
    rw [this]
    norm_num [roundedEdge]
  have e3 : roundDouble (narrowMapWidth - 10) = some roundedEdge := by
    have := roundDouble_of (narrowMapWidth - 10) 7 7568158436307763
      (by norm_num [narrowMapWidth]) (by norm_num) (by norm_num [narrowMapWidth, abs_of_pos])
      (by norm_num [narrowMapWidth, abs_of_pos]) (by norm_num [narrowMapWidth, abs_lt])
      (by norm_num [abs_of_pos])
    rw [this]
    norm_num [roundedEdge]
  simp only [popupLeft, e1, e2, e3, gt_iff_lt, lt_self_iff_false, if_false]

/-- C28 (as stated, refuted): for the doubles `px = 0.1`, `w = 200` and `W = 225.1`, with
`0 ≤ px ≤ W`, the exact sum `px + 15 + w` exceeds `W - 10`, yet the popup is not flipped: its
left edge is `15.1`, not `px - 15 - w`, and its right edge lies above `W - 10`. -/
theorem popup_not_flipped_at_rounded_boundary :
    ¬ ∀ (px w W : ℚ), isDouble px → isDouble w → isDouble W → 0 ≤ px → px ≤ W → 0 ≤ w →
        ∃ left, popupLeft px w W = some left ∧
          (px + 15 + w ≤ W - 10 → left = px + 15) ∧
          (¬ px + 15 + w ≤ W - 10 → left = px - 15 - w) ∧
          left + w ≤ W - 10 ∧
          (¬ px + 15 + w ≤ W - 10 → left + w < px) := by
  intro h
  obtain ⟨d1, d2, d3⟩ := isDouble_samples
  obtain ⟨left, h1, _, _, h4, _⟩ := h pointerTenth 200 narrowMapWidth d1 d2 d3
    (by norm_num [pointerTenth]) (by norm_num [pointerTenth, narrowMapWidth]) (by norm_num)
  rw [popupLeft_boundary] at h1
  have e : left = unflippedLeft := (Option.some.inj h1).symm
  rw [e] at h4
  norm_num [unflippedLeft, narrowMapWidth] at h4

/-- C28 (amended): when the sums and differences that `showHoverPopup` forms are exact in
double arithmetic (as they are for integer pixel values, see `roundDouble_intCast`) and the
pointer is within the map width, the left edge is `px + 15` when `px + 15 + w ≤ W - 10` and
`px - 15 - w` otherwise; in both cases the right edge `left + w` is at most `W - 10`, and in
the second case it is left of the pointer. -/
theorem popup_flips_when_sums_exact (px w W : ℚ) (hpx : px ≤ W)
    (h1 : roundDouble (px + 15) = some (px + 15))
    (h2 : roundDouble (px + 15 + w) = some (px + 15 + w))
    (h3 : roundDouble (W - 10) = some (W - 10))
    (h4 : roundDouble (px + 15 - w) = some (px + 15 - w))
    (h5 : roundDouble (px + 15 - w - 30) = some (px + 15 - w - 30)) :
    ∃ left, popupLeft px w W = some left ∧
      (px + 15 + w ≤ W - 10 → left = px + 15) ∧
      (¬ px + 15 + w ≤ W - 10 → left = px - 15 - w) ∧
      left + w ≤ W - 10 ∧
      (¬ px + 15 + w ≤ W - 10 → left + w < px) := by
  by_cases h : px + 15 + w > W - 10
  · refine ⟨px + 15 - w - 30, ?_, fun hle => absurd h (not_lt.2 hle), fun _ => by ring,
      by linarith, fun _ => by linarith⟩
    simp only [popupLeft, h1, h2, h3, h4, h5, if_pos h]
  · have hle : px + 15 + w ≤ W - 10 := not_lt.1 h
    refine ⟨px + 15, ?_, fun _ => rfl, fun hn => absurd hle hn, hle, fun hn => absurd hle hn⟩
    simp only [popupLeft, h1, h2, h3, if_neg h]

theorem popup_flips_when_sums_exact_witness :
    (700 : ℚ) ≤ 800 ∧ roundDouble ((700 : ℚ) + 15) = some (700 + 15) ∧
      ∃ left, popupLeft 700 200 800 = some left ∧ left = 700 - 15 - 200 ∧
        left + 200 < 700 :=
  have h1 : roundDouble ((700 : ℚ) + 15) = some (700 + 15) := by
    have := roundDouble_intCast 715 (by norm_num)
    norm_num at this ⊢
    exact this
  have h2 : roundDouble ((700 : ℚ) + 15 + 200) = some (700 + 15 + 200) := by
    have := roundDouble_intCast 915 (by norm_num)
    norm_num at this ⊢
    exact this
  have h3 : roundDouble ((800 : ℚ) - 10) = some (800 - 10) := by
    have := roundDouble_intCast 790 (by norm_num)
    norm_num at this ⊢
    exact this
  have h4 : roundDouble ((700 : ℚ) + 15 - 200) = some (700 + 15 - 200) := by
    have := roundDouble_intCast 515 (by norm_num)
    norm_num at this ⊢
    exact this
  have h5 : roundDouble ((700 : ℚ) + 15 - 200 - 30) = some (700 + 15 - 200 - 30) := by
    have := roundDouble_intCast 485 (by norm_num)
    norm_num at this ⊢
    exact this
  ⟨by norm_num, h1,
    let ⟨left, k1, _, k3, _, k5⟩ :=
      popup_flips_when_sums_exact 700 200 800 (by norm_num) h1 h2 h3 h4 h5
    ⟨left, k1, k3 (by norm_num), k5 (by norm_num)⟩⟩

theorem iterate_switchBasemap (n : Nat) (st : ModeState) (m : MapState)
    (hm : st.page.map = some m) :
    (∃ m1, (Nat.iterate switchBasemap n st).page.map = some m1) ∧
      (Nat.iterate switchBasemap n st).layerClickHandlers = st.layerClickHandlers + n := by
  induction n generalizing st m with
  | zero => exact ⟨⟨m, hm⟩, rfl⟩
  | succ n ih =>
    obtain ⟨m1, h1, _, _, _, _, h6, _⟩ := switchBasemap_some st m hm
    obtain ⟨k1, k2⟩ := ih (switchBasemap st) m1 h1
    refine ⟨k1, ?_⟩
    show (Nat.iterate switchBasemap n (switchBasemap st)).layerClickHandlers = _
    rw [k2, h6]
    omega

/-- C29 (violated by the code): after `n` basemap swaps every interactive layer has `n + 1`
click handlers, not one.  After one swap with BulkSelect active and nothing selected, a
click on the feature with id property `t2` runs two handlers, which toggle `t2` in and out
again: the Selection Set is still empty, where without the swap it would hold `t2`. -/
theorem basemap_swap_adds_click_handlers (n : Nat) :
    (Nat.iterate switchBasemap n loadedModes).layerClickHandlers = n + 1 ∧
      (switchBasemap selectModeOn).layerClickHandlers = 2 ∧
      (switchBasemap selectModeOn).selectMode = true ∧
      (mapClick (geometryUtilities triangleDist triangleArea) ⟨4, "t2"⟩ (1, 1)
          (switchBasemap selectModeOn)).toOption.map (fun s => s.selectedTaskIds)
        = some [] ∧
      (mapClick (geometryUtilities triangleDist triangleArea) ⟨4, "t2"⟩ (1, 1)
          selectModeOn).toOption.map (fun s => s.selectedTaskIds)
        = some ["t2"] := by
  refine ⟨?_, rfl, rfl, rfl, rfl⟩
  have h := (iterate_switchBasemap n loadedModes panMap rfl).2
  rw [h]
  show 1 + n = n + 1
  omega

/-- C30: whatever the response, a bounding-box-scoped load completes and leaves the camera
(zoom, bounds and the data it was last fitted to) unchanged; a load changes what the camera
is fitted to only if it is not bounding-box-scoped and its response carries at least one
feature. -/
theorem bbox_reload_keeps_camera (m : MapState) (r : ApiResult) :
    (∃ m1, loadMapDataRespond m true r = .ok m1 ∧
        m1.zoom = m.zoom ∧ m1.bounds = m.bounds ∧ m1.fittedTo = m.fittedTo) ∧
      (∀ (b : Bool) (m1 : MapState), loadMapDataRespond m b r = .ok m1 →
        m1.zoom = m.zoom ∧ m1.bounds = m.bounds ∧
        (m1.fittedTo ≠ m.fittedTo →
          b = false ∧ ∃ fs, r = .resolved (some fs) ∧ fs.length > 0)) := by
  have key : ∀ (b : Bool) (m1 : MapState), loadMapDataRespond m b r = .ok m1 →
      m1.zoom = m.zoom ∧ m1.bounds = m.bounds ∧
      (m1.fittedTo ≠ m.fittedTo → b = false ∧ ∃ fs, r = .resolved (some fs) ∧ fs.length > 0) := by
    intro b m1 h
    unfold loadMapDataRespond at h
    cases ht : loadMapDataTry m b r with
    | error e =>
      rw [ht] at h
      cases h
      exact ⟨rfl, rfl, fun hne => absurd rfl hne⟩
    | ok m2 =>
      rw [ht] at h
      cases h
      unfold loadMapDataTry at ht
      cases r with
      | rejected msg => cases ht
      | resolved body =>
        cases body with
        | none => cases ht
        | some fs =>
          simp only at ht
          cases hp : forEachFeature fs 0 Parts.empty with
          | error e => rw [hp] at ht; cases ht
          | ok parts =>
            rw [hp] at ht
            simp only [Except.ok.injEq] at ht
            rw [← ht]
            refine ⟨rfl, rfl, ?_⟩
            intro hne
            by_cases hc : ¬ b = true ∧ fs.length > 0
            · exact ⟨by simpa using hc.1, fs, rfl, hc.2⟩
            · simp only [hc, if_false] at hne
              exact absurd rfl hne
  constructor
  · have hex : ∃ m1, loadMapDataRespond m true r = .ok m1 := by
      unfold loadMapDataRespond
      cases loadMapDataTry m true r <;> exact ⟨_, rfl⟩
    obtain ⟨m1, h1⟩ := hex
    obtain ⟨k1, k2, k3⟩ := key true m1 h1
    refine ⟨m1, h1, k1, k2, ?_⟩
    by_contra hne
    have := (k3 hne).1
    cases this
  · exact key

end Elite360
